import Mathlib

/-!
Verification of the query-compilation and query-execution core of
`osm_rawdata/postgres.py` (class `DatabaseAccess` and the free function
`uriParser`).

The Python source is shallowly embedded below.  Python strings are Lean
`String`s, Python `None` is `Option.none`, SQL `NULL` cells are `none`,
Python dicts that are only written and then looked up are association
lists with Python's overwrite-on-assignment semantics (`dictSet`).
Values in a filter clause are lists of strings, following the declared
data model of `QueryConfig` (sequence of string / the sentinel
"not null"); the dead branch of `createSQL` that handles a value which
is itself a list of lists is outside this domain and is noted where it
occurs.
-/

namespace OsmRaw

/-! ## Python string primitives -/

/-- Index of the first occurrence of character `c`, as `List.findIdx?`
but with a direct recursion we can reason about. -/
def findIdxFrom (c : Char) : List Char → Option Nat
  | [] => none
  | x :: xs => if x = c then some 0 else (findIdxFrom c xs).map (· + 1)

/-- Python `source.find(c)`: first index of `c`, `-1` when absent. -/
def pyFind (s : String) (c : Char) : Int :=
  match findIdxFrom c s.data with
  | some i => (i : Int)
  | none => -1

/-- Python `source.rfind(c)`: last index of `c`, `-1` when absent. -/
def pyRfind (s : String) (c : Char) : Int :=
  match findIdxFrom c s.data.reverse with
  | some i => ((s.data.length - 1 - i : Nat) : Int)
  | none => -1

/-- Python `s[a:b]` for `0 ≤ a ≤ b` call sites (all uses in `uriParser`
are guarded so that both indices are nonnegative; `a > b` gives `""`). -/
def pySlice (s : String) (a b : Int) : String :=
  ⟨(s.data.drop a.toNat).take (b.toNat - a.toNat)⟩

/-- Python `s[a:]` for the nonnegative `a` call sites. -/
def pySliceFrom (s : String) (a : Int) : String :=
  ⟨s.data.drop a.toNat⟩

/-- Python `s[:b]` for the nonnegative `b` call sites. -/
def pySliceTo (s : String) (b : Int) : String :=
  ⟨s.data.take b.toNat⟩

/-- Python `s[:-2]`. -/
def pyDropLast2 (s : String) : String :=
  ⟨s.data.dropLast.dropLast⟩

/-- Python `s[:-1]`. -/
def pyDropLast1 (s : String) : String :=
  ⟨s.data.dropLast⟩

/-- Index of the first occurrence of a substring. -/
def findSubIdx (sub : List Char) : List Char → Option Nat
  | [] => if sub.isEmpty then some 0 else none
  | x :: xs => if sub.isPrefixOf (x :: xs) then some 0 else (findSubIdx sub xs).map (· + 1)

/-- Python `s.find(sub)`: first index of a substring, `-1` when absent. -/
def pyFindSub (s : String) (sub : String) : Int :=
  match findSubIdx sub.data s.data with
  | some i => (i : Int)
  | none => -1

/-- Python `s[:b]` allowing a negative `b` (counted from the end), as
needed for `query[: query.find("FROM")]` when `find` returns `-1`. -/
def pySliceToSigned (s : String) (b : Int) : String :=
  if b < 0 then ⟨s.data.take (s.data.length - (-b).toNat)⟩ else ⟨s.data.take b.toNat⟩

/-- Python `s.rstrip()`; the strings this is applied to only ever end in
spaces, so only spaces are stripped. -/
def pyRstrip (s : String) : String :=
  ⟨(s.data.reverse.dropWhile (fun c => c = (' '))).reverse⟩

/-- Python `s[: s.rfind(" ")]`: everything before the last space, or all
but the last character when there is no space (`rfind` returns `-1`). -/
def pyDropLastWord (s : String) : String :=
  if (' ') ∈ s.data then
    ⟨((s.data.reverse.dropWhile (fun c => c ≠ (' '))).drop 1).reverse⟩
  else
    ⟨s.data.dropLast⟩

/-- Python `repr` of a string as used by `str(tuple(v))`: single quotes,
double quotes when the string contains a single quote and no double
quote.  (Escape sequences for strings containing both quote kinds are
not modelled; no claim touches them.) -/
def pyReprStr (s : String) : String :=
  if s.contains ('\x27') && !(s.contains ('"')) then
    "\"" ++ s ++ "\""
  else
    "\x27" ++ s ++ "\x27"

/-- Python `str(tuple(v))` for a list of at least two strings:
`('a', 'b')`. -/
def pyTupleStr (v : List String) : String :=
  "(" ++ String.intercalate (", ") (v.map pyReprStr) ++ ")"

/-- The final whitespace-delimited token of a string. -/
def lastWord (s : String) : String :=
  ⟨(s.data.reverse.takeWhile (fun c => c ≠ (' '))).reverse⟩

/-- A dangling boolean operator (or a dangling `WHERE`) at the end of a
SQL string. -/
def hasDanglingOp (s : String) : Bool :=
  decide (lastWord s = "OR" ∨ lastWord s = "AND" ∨ lastWord s = "WHERE")

/-- Python dict assignment `d[k] = v` on a dict represented as an
association list with unique keys: overwrite in place when the key
exists, append otherwise. -/
def dictSet : List (String × α) → String → α → List (String × α)
  | [], k, v => [(k, v)]
  | p :: d, k, v => if p.1 = k then (k, v) :: d else p :: dictSet d k v

/-- Dict lookup on the association-list representation. -/
def dictGet? : List (String × α) → String → Option α
  | [], _ => none
  | p :: d, k => if p.1 = k then some p.2 else dictGet? d k

/-! ## The configuration data model

`QueryConfig` itself lives in `osm_rawdata/config.py`, which only hands
`postgres.py` a nested dict `config` with keys `tables`, `select`,
`where` (and optionally `centroid`).  Modelled from the spec: a `where`
clause is `{attributeKey, operator ∈ {AND, OR}, values : sequence of
string | sentinel "not null"}`; a `select` entry is an
`(attributeKey, rendering-hint)` pair; the three geometry classes are
`nodes`, `ways_line`, `ways_poly`. -/

/-- The clause operator, Python strings `"or"` / `"and"`. -/
inductive Op
  | or
  | and
deriving DecidableEq, Repr

/-- One `where` clause: in Python a dict `{key: values, "op": op}`. -/
structure Clause where
  key : String
  values : List String
  op : Op
deriving DecidableEq, Repr

/-- The three geometry-class tables. -/
inductive TableName
  | nodes
  | ways_line
  | ways_poly
deriving DecidableEq, Repr

/-- SQL name of a table. -/
def tableNameStr : TableName → String
  | TableName.nodes => "nodes"
  | TableName.ways_line => "ways_line"
  | TableName.ways_poly => "ways_poly"

/-- Modelled from the spec: the iteration order of the geometry-class
keys of the `select`/`where` dicts built by `config.py` (not under
`src/`); the spec lists the classes as `nodes`, `ways_line`,
`ways_poly`. -/
def allTables : List TableName :=
  [TableName.nodes, TableName.ways_line, TableName.ways_poly]

/-- The parsed query configuration as consumed by `postgres.py`:
`config.config["tables"]`, `config.config["select"][table]`,
`config.config["where"][table]`, and the presence of the optional
`"centroid"` key. -/
structure QueryConfig where
  tables : List TableName
  select : TableName → List (String × String)
  where_ : TableName → List Clause
  centroid : Bool

/-! ## `DatabaseAccess.createSQL` (postgres.py lines 244-335) -/

/-- The `SELECT` clause built for one table: geometry projection,
`osm_id`, `version`, one `tags->>'k'` projection per select entry, with
the final `", "` removed by `select[:-2]`. -/
def selectPart (allgeom : Bool) (entries : List (String × String)) : String :=
  pyDropLast2
    ((if allgeom then "SELECT ST_AsText(geom)" else "SELECT ST_AsText(ST_Centroid(geom))")
      ++ ", osm_id, version, "
      ++ entries.foldl (fun acc e => acc ++ "tags->>\x27" ++ e.1 ++ "\x27, ") "")

/-- Rendering of one OR-group value list (the `jor` loop body).  The
branch for a first value that is itself a list (`ANY(ARRAY...)`) is
unreachable in the declared data model, where values are strings. -/
def renderValsOr (v : List String) : String :=
  match v with
  | [x] => if x = "not null" then "IS NOT NULL" else "=\x27" ++ x ++ "\x27"
  | [] => "IS NOT NULL"
  | _ => " IN " ++ pyTupleStr v

/-- Rendering of one AND-group value list (the `jand` loop body); note
the zero-values branch produces `"IS NOT NULL AND"` (line 327), not
`"IS NOT NULL"`. -/
def renderValsAnd (v : List String) : String :=
  match v with
  | [x] => if x = "not null" then "IS NOT NULL" else "=\x27" ++ x ++ "\x27"
  | [] => "IS NOT NULL AND"
  | _ => " IN " ++ pyTupleStr v

/-- One OR-group clause as appended to `jor`. -/
def jorClause (c : Clause) : String :=
  "tags->>\x27" ++ c.key ++ "\x27 " ++ renderValsOr c.values ++ " OR "

/-- One AND-group clause as appended to `jand`. -/
def jandClause (c : Clause) : String :=
  "tags->>\x27" ++ c.key ++ "\x27 " ++ renderValsAnd c.values ++ " AND "

/-- The clauses of a table partitioned into the OR group, in order. -/
def orGroup (cs : List Clause) : List Clause :=
  cs.filter (fun c => c.op = Op.or)

/-- The clauses of a table partitioned into the AND group, in order. -/
def andGroup (cs : List Clause) : List Clause :=
  cs.filter (fun c => c.op = Op.and)

/-- Concatenation of rendered OR clauses. -/
def jorCat (cs : List Clause) : String :=
  cs.foldl (fun acc c => acc ++ jorClause c) ""

/-- Concatenation of rendered AND clauses. -/
def jandCat (cs : List Clause) : String :=
  cs.foldl (fun acc c => acc ++ jandClause c) ""

/-- The accumulated `jor` string. -/
def jorStr (cs : List Clause) : String :=
  jorCat (orGroup cs)

/-- The accumulated `jand` string. -/
def jandStr (cs : List Clause) : String :=
  jandCat (andGroup cs)

/-- One compiled statement:
`f"{select} FROM {table} WHERE {jor} {jand}".rstrip()` followed by
`query[: query.rfind(" ")]`. -/
def tableQuery (cfg : QueryConfig) (allgeom : Bool) (t : TableName) : String :=
  pyDropLastWord (pyRstrip
    (selectPart allgeom (cfg.select t) ++ " FROM " ++ tableNameStr t ++ " WHERE "
      ++ jorStr (cfg.where_ t) ++ " " ++ jandStr (cfg.where_ t)))

/-- Embedding of `DatabaseAccess.createSQL`: one SQL string per declared table. -/
def createSQL (cfg : QueryConfig) (allgeom : Bool) : List String :=
  cfg.tables.map (tableQuery cfg allgeom)

/-! ## `uriParser` (postgres.py lines 51-114) -/

/-- The dict returned by `uriParser`. -/
structure DbUri where
  dbname : Option String
  dbhost : Option String
  dbuser : Option String
  dbpass : Option String
  dbport : Option String
deriving DecidableEq, Repr

/-- Embedding of `uriParser`: positional decomposition of a connection string driven
by the indices of the first `:`, last `:`, first `@` and first `/`
(each `-1` when absent).  The sequence of guarded assignments mirrors
the Python statement order; a final falsy `dbhost` (unset or empty)
becomes `"localhost"`. -/
def uriParser (source : String) : DbUri :=
  let colon := pyFind source (':')
  let rcolon := pyRfind source (':')
  let atsign := pyFind source ('@')
  let slash := pyFind source ('/')
  let dbname := if colon < 0 ∧ atsign < 0 ∧ slash < 0 then some source else none
  let dbname := if 0 < slash then some (pySliceFrom source (slash + 1)) else dbname
  let dbuser := if 0 < colon then some (pySliceTo source colon) else none
  let dbuser := if colon < 0 ∧ 0 < atsign then some (pySliceTo source atsign) else dbuser
  let dbpass := if 0 < colon ∧ 0 < atsign then some (pySlice source (colon + 1) atsign) else none
  let dbhost :=
    if 0 < atsign then
      if 0 < rcolon ∧ atsign < rcolon then some (pySlice source (atsign + 1) rcolon)
      else if 0 < slash then some (pySlice source (atsign + 1) slash)
      else some (pySliceFrom source (atsign + 1))
    else none
  let dbport :=
    if 0 < rcolon ∧ atsign < rcolon then
      if 0 < slash then some (pySlice source (rcolon + 1) slash)
      else some (pySliceFrom source (rcolon + 1))
    else none
  let dbpass := if 0 < colon ∧ atsign < 0 ∧ 0 < slash then some (pySlice source (colon + 1) slash) else dbpass
  let dbhost := if dbhost = none ∨ dbhost = some "" then some "localhost" else dbhost
  { dbname := dbname, dbhost := dbhost, dbuser := dbuser, dbpass := dbpass, dbport := dbport }

/-! ## `DatabaseAccess.createJson` (postgres.py lines 164-242) -/

/-- The `join_or`/`join_and` maps of one geometry class inside
`filters["tags"]`. -/
structure JoinMaps where
  join_or : List (String × List String)
  join_and : List (String × List String)
deriving DecidableEq, Repr

/-- Processing of one `where` clause (lines 218-229): a clause whose
value list contains `"not null"` is recorded with an empty value list
under both join maps; every other clause's value list is recorded under
both join maps as well, regardless of the clause's operator.  (The
per-operator `join_or`/`join_and` key lists built on lines 220-223 are
never read and are not modelled.) -/
def applyClause (m : JoinMaps) (c : Clause) : JoinMaps :=
  if ("not null") ∈ c.values then
    { join_or := dictSet m.join_or c.key [], join_and := dictSet m.join_and c.key [] }
  else
    { join_or := dictSet m.join_or c.key c.values, join_and := dictSet m.join_and c.key c.values }

/-- The filters of one geometry class: the clauses of its table folded
into initially empty join maps. -/
def classFilters (cfg : QueryConfig) (t : TableName) : JoinMaps :=
  (cfg.where_ t).foldl applyClause { join_or := [], join_and := [] }

/-- The `filters` tag maps: one pair of join maps per geometry class
(`nodes ↦ point`, `ways_poly ↦ polygon`, `ways_line ↦ line`). -/
structure TagFilters where
  point : JoinMaps
  polygon : JoinMaps
  line : JoinMaps
deriving DecidableEq, Repr

/-- The `geometryType` list (lines 189-197): a class is emitted when its
table has select entries or where clauses, in the order point, line,
polygon. -/
def geometryType (cfg : QueryConfig) : List String :=
  (if 0 < (cfg.select TableName.nodes).length ∨ 0 < (cfg.where_ TableName.nodes).length
    then ["point"] else [])
  ++ (if 0 < (cfg.select TableName.ways_line).length ∨ 0 < (cfg.where_ TableName.ways_line).length
    then ["line"] else [])
  ++ (if 0 < (cfg.select TableName.ways_poly).length ∨ 0 < (cfg.where_ TableName.ways_poly).length
    then ["polygon"] else [])

/-- The `feature` dict assembled by `createJson` before serialization:
boundary geometry, `geometryType`, and the per-class tag filters.  (The
`attributes` list built on lines 232-237 is never used and is not
modelled.) -/
structure RemoteDoc where
  geometry : String
  geometryType : List String
  filters : TagFilters
deriving DecidableEq, Repr

/-- The document built by `createJson` for a boundary polygon. -/
def createJsonDoc (cfg : QueryConfig) (boundary : String) : RemoteDoc where
  geometry := boundary
  geometryType := geometryType cfg
  filters :=
    { point := classFilters cfg TableName.nodes
      polygon := classFilters cfg TableName.ways_poly
      line := classFilters cfg TableName.ways_line }

/-- A plain JSON rendering of one join map. -/
def dumpsJoinMap (d : List (String × List String)) : String :=
  "\x7b" ++ String.intercalate (", ")
    (d.map (fun p =>
      "\"" ++ p.1 ++ "\": [" ++ String.intercalate (", ") (p.2.map (fun v => "\"" ++ v ++ "\"")) ++ "]"))
  ++ "\x7d"

/-- A plain JSON rendering of one geometry class. -/
def dumpsClass (m : JoinMaps) : String :=
  "\x7b\"join_or\": " ++ dumpsJoinMap m.join_or ++ ", \"join_and\": " ++ dumpsJoinMap m.join_and ++ "\x7d"

/-- Serialization `json.dumps(feature)` for the assembled document (key order is dict
insertion order: geometry, geometryType, filters). -/
def dumpsRemoteDoc (d : RemoteDoc) : String :=
  "\x7b\"geometry\": " ++ d.geometry
  ++ ", \"geometryType\": [" ++ String.intercalate (", ") (d.geometryType.map (fun g => "\"" ++ g ++ "\"")) ++ "]"
  ++ ", \"filters\": \x7b\"tags\": \x7b\"point\": " ++ dumpsClass d.filters.point
  ++ ", \"polygon\": " ++ dumpsClass d.filters.polygon
  ++ ", \"line\": " ++ dumpsClass d.filters.line ++ "\x7d\x7d\x7d"

/-- Embedding of `DatabaseAccess.createJson`: when the config dict has a `"centroid"`
key, line 241 evaluates the unbound Python identifier `true` and the
call raises `NameError` (modelled as `Except.error`); otherwise the
serialized document is returned. -/
def createJson (cfg : QueryConfig) (boundary : String) : Except String String :=
  if cfg.centroid then
    Except.error ("NameError: name \x27true\x27 is not defined")
  else
    Except.ok (dumpsRemoteDoc (createJsonDoc cfg boundary))

/-! ## `DatabaseAccess.queryLocal` (postgres.py lines 358-439)

Only the result-decoding phase (from line 397 on) is embedded: the
boundary-view creation and cursor execution are database I/O.  The rows
fetched by the cursor are the input; a cell is `Option String`
(`none` = SQL `NULL`). -/

/-- One decoded feature: a WKT geometry and ordered properties.  The
`id`/`version` entries keep whatever cell value the row held (possibly
null); attribute entries are only present for non-null cells. -/
structure Feature where
  geometry : String
  properties : List (String × Option String)
deriving DecidableEq, Repr

/-- The possible outcomes of the decoding phase. -/
inductive LocalResult
  | raw (rows : List (List (Option String)))
  | collection (features : List Feature)
  | raised (exc : String)
deriving DecidableEq, Repr

/-- The select entries of every geometry class concatenated, in the
iteration order of `config["select"].items()` (see `allTables`). -/
def selectEntriesAll (cfg : QueryConfig) : List (String × String) :=
  (allTables.map cfg.select).flatten

/-- The inner decoding loop (lines 419-426) over the concatenated select
entries, reading `item[i]` from `i = 3`: stop when `i` reaches the row
length, store `tags[k] = item[i]` only for non-null cells.  (The
Python `break` leaves one table's inner loop, but the `i == len(item)`
test re-fires immediately for every later table, so a single loop over
the concatenation is equivalent.) -/
def decodeLoop (item : List (Option String)) :
    List (String × String) → Nat → List (String × Option String) → List (String × Option String)
  | [], _, tags => tags
  | e :: es, i, tags =>
    if i = item.length then tags
    else
      match item.getD i none with
      | some v => decodeLoop item es (i + 1) (dictSet tags e.1 (some v))
      | none => decodeLoop item es (i + 1) tags

/-- Decoding of one result row (lines 407-437).  `none` models a raised
Python exception (`IndexError` on a too-short row, `TypeError` from
`wkt.loads(None)`); `query` is the executed SQL text, used only by the
custom-SQL branch when the configuration declares no tables. -/
def decodeRow (cfg : QueryConfig) (query : String) (item : List (Option String)) : Option Feature :=
  match item with
  | g? :: idCell :: verCell :: _ =>
    match g? with
    | none => none
    | some g =>
      let tags := dictSet (dictSet [] ("id") idCell) ("version") verCell
      if 0 < cfg.tables.length then
        some { geometry := g, properties := decodeLoop item (selectEntriesAll cfg) 3 tags }
      else
        let res := (pySliceToSigned query (pyFindSub query ("FROM"))).splitOn (" ")
        match res.get? 2, res.get? 3 with
        | some r2, some r3 =>
          some { geometry := g
                 properties := dictSet (dictSet tags (pyDropLast1 r2) idCell) (pyDropLast1 r3) verCell }
        | _, _ => none
  | _ => none

/-- Decoding of every row, short-circuiting to a raised exception. -/
def decodeRows (cfg : QueryConfig) (query : String) :
    List (List (Option String)) → Option (List Feature)
  | [] => some []
  | item :: rest =>
    match decodeRow cfg query item, decodeRows cfg query rest with
    | some f, some fs => some (f :: fs)
    | _, _ => none

/-- Embedding of `DatabaseAccess.queryLocal`, decoding phase.  `fetched = none`
models `fetchall` raising (line 400: an empty `FeatureCollection` is
returned).  With no `where` filters on `ways_poly` and `nodes` the raw
row tuples are returned unchanged (line 404).  A single row of length
at most one is also returned raw (line 408). -/
def queryLocal (cfg : QueryConfig) (query : String)
    (fetched : Option (List (List (Option String)))) : LocalResult :=
  match fetched with
  | none => LocalResult.collection []
  | some result =>
    if (cfg.where_ TableName.ways_poly).length = 0 ∧ (cfg.where_ TableName.nodes).length = 0 then
      LocalResult.raw result
    else
      match result with
      | [item] =>
        if item.length ≤ 1 then LocalResult.raw result
        else
          match decodeRows cfg query result with
          | some fs => LocalResult.collection fs
          | none => LocalResult.raised ("IndexError")
      | _ =>
        match decodeRows cfg query result with
        | some fs => LocalResult.collection fs
        | none => LocalResult.raised ("IndexError")

/-! ## `DatabaseAccess.queryRemote` (postgres.py lines 441-517)

The HTTP world is abstracted: the submission `POST` either raises a
network-level exception or yields a response with a status code and a
body that may or may not parse as JSON; each polling `GET` yields a
status string (`resp k` is the status of the `k`-th poll).  The
download phase after a `SUCCESS` break is summarised by
`RemoteResult.success`.  Loop iterations are metered by a `fuel`
argument: `outOfFuel` means the loop has not exited within `fuel`
iterations, which for every finite fuel models non-termination. -/

/-- What the parsed JSON body of the submission response provides:
`detailMsg` models `result.json().get("detail")[0].get("msg")`, with
`none` for a body where that chain raises. -/
structure RespBody where
  detailMsg : Option String
deriving DecidableEq, Repr

/-- Outcome of `self.session.post(...)` followed by
`raise_for_status()`: either the request itself raised, or a response
arrived with a status code and a body (`none` = body that
`result.json()` fails to parse). -/
inductive PostOutcome
  | raisedConn
  | ok (statusCode : Nat) (body : Option RespBody)
deriving DecidableEq, Repr

/-- What `queryRemote` does, as seen by its caller. -/
inductive RemoteResult
  | raised (exc : String)
  | errorDoc (body : RespBody) (statusCode : Nat)
  | nullResult
  | success
  | outOfFuel
deriving DecidableEq, Repr

/-- The polling loop (lines 483-507), one constructor argument per
mutable Python variable: poll counter `k`, `elapsed_time`,
`polling_interval`.  A `PENDING` status switches the interval to 10
once more than 60 seconds have elapsed, sleeps and advances the clock;
`SUCCESS` breaks to the download; any other status re-polls without
advancing the clock; the `while`-`else` on budget exhaustion returns
`None`. -/
def pollLoop (resp : Nat → String) : Nat → Nat → Nat → Nat → RemoteResult
  | 0, _, _, _ => RemoteResult.outOfFuel
  | fuel + 1, k, elapsed, interval =>
    if elapsed < 600 then
      if resp k = "PENDING" then
        let interval' := if 60 < elapsed then 10 else interval
        pollLoop resp fuel (k + 1) (elapsed + interval') interval'
      else if resp k = "SUCCESS" then RemoteResult.success
      else pollLoop resp fuel (k + 1) elapsed interval
    else RemoteResult.nullResult

/-- The sleep durations performed by the polling loop, in order. -/
def pollSleeps (resp : Nat → String) : Nat → Nat → Nat → Nat → List Nat
  | 0, _, _, _ => []
  | fuel + 1, k, elapsed, interval =>
    if elapsed < 600 then
      if resp k = "PENDING" then
        let interval' := if 60 < elapsed then 10 else interval
        interval' :: pollSleeps resp fuel (k + 1) (elapsed + interval') interval'
      else if resp k = "SUCCESS" then []
      else pollSleeps resp fuel (k + 1) elapsed interval
    else []

/-- The polling loop never exits, whatever iteration bound is allowed. -/
def pollDiverges (resp : Nat → String) : Prop :=
  ∀ fuel, pollLoop resp fuel 0 0 2 = RemoteResult.outOfFuel

/-- Embedding of `DatabaseAccess.queryRemote`.  Only `requests.exceptions.HTTPError`
(raised by `raise_for_status` for a status of 400 or above) is caught
(line 461): a network-level failure of the `POST` itself propagates, so
the `result is None` logging branch (lines 467-472) is unreachable.
Inside the handler, `result.json()` on an unparseable body raises.  A
sub-400 status other than 200 reads
`result.json().get("detail")[0].get("msg")` — raising when that chain
fails — and returns `None`.  A 200 response enters the polling loop
with `polling_interval = 2` and `elapsed_time = 0`. -/
def queryRemote (post : PostOutcome) (resp : Nat → String) (fuel : Nat) : RemoteResult :=
  match post with
  | PostOutcome.raisedConn => RemoteResult.raised ("ConnectionError")
  | PostOutcome.ok status body =>
    if 400 ≤ status then
      match body with
      | none => RemoteResult.raised ("JSONDecodeError")
      | some b => RemoteResult.errorDoc b status
    else if status ≠ 200 then
      match body with
      | none => RemoteResult.raised ("JSONDecodeError")
      | some b =>
        match b.detailMsg with
        | none => RemoteResult.raised ("TypeError")
        | some _ => RemoteResult.nullResult
    else
      match body with
      | none => RemoteResult.raised ("JSONDecodeError")
      | some _ => pollLoop resp fuel 0 0 2

/-- A status stream that is forever `PENDING`. -/
def constPending : Nat → String := fun _ => "PENDING"

/-- A status stream that is forever `FAILURE`. -/
def constFailure : Nat → String := fun _ => "FAILURE"

/-! ## Auxiliary definitions used by the claim statements -/

/-- The join maps of the geometry class a table is mapped to
(`nodes ↦ point`, `ways_poly ↦ polygon`, `ways_line ↦ line`). -/
def filtersOfTable (d : RemoteDoc) : TableName → JoinMaps
  | TableName.nodes => d.filters.point
  | TableName.ways_poly => d.filters.polygon
  | TableName.ways_line => d.filters.line

/-- A component of a connection string that contains none of the three
separator characters. -/
def sepFree (s : String) : Prop :=
  ∀ c ∈ s.data, c ≠ (':') ∧ c ≠ ('@') ∧ c ≠ ('/')

/-! ## Concrete configurations used by counterexamples and witnesses -/

/-- A config whose only clause is an AND clause with an empty value
list. -/
def cfgZeroAnd : QueryConfig where
  tables := [TableName.nodes]
  select := fun _ => []
  where_ := fun t => match t with
    | TableName.nodes => [⟨"highway", [], Op.and⟩]
    | _ => []
  centroid := false

/-- A config with one OR clause and one AND clause on `ways_poly`. -/
def cfgOrAnd : QueryConfig where
  tables := [TableName.ways_poly]
  select := fun _ => []
  where_ := fun t => match t with
    | TableName.ways_poly => [⟨"building", ["yes"], Op.or⟩, ⟨"amenity", ["bar"], Op.and⟩]
    | _ => []
  centroid := false

/-- A config with no where clauses at all and one select entry on
`ways_line`. -/
def cfgNoWhere : QueryConfig where
  tables := [TableName.ways_line]
  select := fun t => match t with
    | TableName.ways_line => [("highway", "h")]
    | _ => []
  centroid := false
  where_ := fun _ => []

/-- A config with a single OR clause with one concrete value. -/
def cfgOrOnly : QueryConfig where
  tables := [TableName.nodes]
  select := fun _ => []
  where_ := fun t => match t with
    | TableName.nodes => [⟨"building", ["yes"], Op.or⟩]
    | _ => []
  centroid := false

/-- A config with a "not null" clause and a two-value AND clause. -/
def cfgNotNull : QueryConfig where
  tables := [TableName.nodes]
  select := fun _ => []
  where_ := fun t => match t with
    | TableName.nodes => [⟨"building", ["not null"], Op.or⟩, ⟨"amenity", ["bar", "pub"], Op.and⟩]
    | _ => []
  centroid := false

/-- A config selecting two attributes on `ways_poly`, with a filter so
that the decoding path of `queryLocal` is taken. -/
def cfgTwoAttrs : QueryConfig where
  tables := [TableName.ways_poly]
  select := fun t => match t with
    | TableName.ways_poly => [("building", "yes"), ("amenity", "bar")]
    | _ => []
  where_ := fun t => match t with
    | TableName.ways_poly => [⟨"building", ["yes"], Op.or⟩]
    | _ => []
  centroid := false

/-- A config with no filters on `nodes` or `ways_poly` (bypass mode of
`queryLocal`). -/
def cfgNoFilters : QueryConfig where
  tables := [TableName.ways_line]
  select := fun _ => []
  where_ := fun t => match t with
    | TableName.ways_line => [⟨"highway", ["primary"], Op.or⟩]
    | _ => []
  centroid := false

/-- A config whose dict carries the `"centroid"` key. -/
def cfgCentroid : QueryConfig where
  tables := []
  select := fun _ => []
  where_ := fun _ => []
  centroid := true

/-! ## Helper lemmas: strings and lists -/

theorem strData_append (a b : String) : (a ++ b).data = a.data ++ b.data := by
  cases a
  cases b
  rfl

theorem strMk_data (s : String) : String.mk s.data = s := by
  cases s
  rfl

theorem strMk_inj {l₁ l₂ : List Char} (h : String.mk l₁ = String.mk l₂) : l₁ = l₂ := by
  cases h
  rfl

theorem strAppend_assoc (a b c : String) : a ++ b ++ c = a ++ (b ++ c) := by
  cases a
  cases b
  cases c
  show String.mk _ = String.mk _
  simp [String.append, List.append_assoc]

theorem strAppend_empty (a : String) : a ++ "" = a := by
  cases a
  show String.mk _ = String.mk _
  simp [String.append]

theorem strEmpty_append (a : String) : "" ++ a = a := by
  cases a
  show String.mk _ = String.mk _
  simp [String.append]

theorem dropWhile_append_of_all {p : Char → Bool} {l₁ : List Char} (l₂ : List Char)
    (h : ∀ a ∈ l₁, p a) : (l₁ ++ l₂).dropWhile p = l₂.dropWhile p := by
  induction l₁ with
  | nil => rfl
  | cons a l ih =>
    have ha : p a := h a (List.mem_cons_self a l)
    simp only [List.cons_append, List.dropWhile_cons, ha, if_true]
    exact ih (fun x hx => h x (List.mem_cons_of_mem a hx))

theorem takeWhile_cons_of_pos {p : Char → Bool} {a : Char} (l : List Char) (h : p a) :
    (a :: l).takeWhile p = a :: l.takeWhile p := by
  simp [List.takeWhile_cons, h]

/-- The central trimming fact: `rstrip` followed by `[: rfind(" ")]` on
a string of the shape `p ⧺ " " ⧺ w ⧺ spaces` (with `w` a nonempty
space-free word) recovers `p`. -/
theorem trim_shape (p w sp : List Char) (hw : w ≠ []) (hwns : ∀ c ∈ w, c ≠ (' '))
    (hsp : ∀ c ∈ sp, c = (' ')) :
    pyDropLastWord (pyRstrip ⟨p ++ (' ') :: (w ++ sp)⟩) = ⟨p⟩ := by
  obtain ⟨c, ws, hwr⟩ : ∃ c ws, w.reverse = c :: ws := by
    cases hrev : w.reverse with
    | nil => exact absurd (by simpa using congrArg List.reverse hrev) hw
    | cons c ws => exact ⟨c, ws, rfl⟩
  have hc : c ∈ w := by
    rw [← List.mem_reverse, hwr]
    exact List.mem_cons_self _ _
  have hstrip : pyRstrip ⟨p ++ (' ') :: (w ++ sp)⟩ = ⟨p ++ (' ') :: w⟩ := by
    show String.mk _ = String.mk _
    congr 1
    have hrw : (p ++ (' ') :: (w ++ sp)).reverse = sp.reverse ++ (c :: (ws ++ (' ') :: p.reverse)) := by
      simp [List.reverse_append, hwr, List.append_assoc]
    rw [hrw]
    rw [dropWhile_append_of_all (c :: (ws ++ (' ') :: p.reverse))
      (fun a ha => by simp [hsp a (List.mem_reverse.mp ha)])]
    rw [List.dropWhile_cons]
    rw [if_neg (by simp [hwns c hc])]
    have : c :: (ws ++ (' ') :: p.reverse) = w.reverse ++ (' ') :: p.reverse := by
      rw [hwr]
      simp
    rw [this]
    simp [List.reverse_append]
  rw [hstrip]
  unfold pyDropLastWord
  have hmem : (' ') ∈ p ++ (' ') :: w := by
    exact List.mem_append_right p (List.mem_cons_self _ _)
  rw [if_pos hmem]
  show String.mk _ = String.mk _
  congr 1
  have hrw2 : (p ++ (' ') :: w).reverse = w.reverse ++ (' ') :: p.reverse := by
    simp [List.reverse_append]
  rw [hrw2]
  rw [dropWhile_append_of_all ((' ') :: p.reverse)
    (fun a ha => by simp [hwns a (List.mem_reverse.mp ha)])]
  simp [List.dropWhile_cons]

/-- String-level interface to `trim_shape`: the whole trailing segment
(separating space, dangling word, trailing spaces) is one string. -/
theorem trim_tail (pre tail : String) (w sp : List Char)
    (htail : tail.data = (' ') :: (w ++ sp)) (hw : w ≠ [])
    (hwns : ∀ c ∈ w, c ≠ (' ')) (hsp : ∀ c ∈ sp, c = (' ')) :
    pyDropLastWord (pyRstrip (pre ++ tail)) = pre := by
  have hdata : pre ++ tail = String.mk (pre.data ++ (' ') :: (w ++ sp)) := by
    rw [← strMk_data (pre ++ tail), strData_append, htail]
  rw [hdata, trim_shape pre.data w sp hw hwns hsp, strMk_data]

/-- If a list ends in character `c` and `c` is not a space, the last
word of the corresponding string also ends in `c`. -/
theorem lastWord_getLast (l : List Char) (c : Char) (h : l.getLast? = some c)
    (hc : c ≠ (' ')) : (lastWord ⟨l⟩).data.getLast? = some c := by
  have hrev : l.reverse.head? = some c := by
    rw [List.head?_reverse]
    exact h
  obtain ⟨tl, htl⟩ : ∃ tl, l.reverse = c :: tl := by
    cases hx : l.reverse with
    | nil => rw [hx] at hrev; exact absurd hrev (by simp)
    | cons a tl =>
      rw [hx] at hrev
      simp only [List.head?_cons, Option.some.injEq] at hrev
      subst hrev
      exact ⟨tl, rfl⟩
  show ((l.reverse.takeWhile (fun x => x ≠ (' '))).reverse).getLast? = some c
  rw [htl, takeWhile_cons_of_pos _ (by simp [hc])]
  simp

/-- A string whose last character is none of `R`, `D`, `E` has no
dangling `OR`/`AND`/`WHERE`. -/
theorem noDangling_of_lastChar (s : String) (c : Char) (h : s.data.getLast? = some c)
    (hsp : c ≠ (' ')) (hR : c ≠ ('R')) (hD : c ≠ ('D')) (hE : c ≠ ('E')) :
    hasDanglingOp s = false := by
  have hlw : (lastWord s).data.getLast? = some c := by
    have := lastWord_getLast s.data c h hsp
    rwa [strMk_data] at this
  simp only [hasDanglingOp, decide_eq_false_iff_not]
  rintro (hw | hw | hw) <;> rw [hw] at hlw
  · rw [show (("OR" : String).data.getLast?) = some (('R')) from by decide] at hlw
    exact hR (Option.some.inj hlw).symm
  · rw [show (("AND" : String).data.getLast?) = some (('D')) from by decide] at hlw
    exact hD (Option.some.inj hlw).symm
  · rw [show (("WHERE" : String).data.getLast?) = some (('E')) from by decide] at hlw
    exact hE (Option.some.inj hlw).symm

/-- The last characters a rendered value list can end in. -/
def goodLastChar (c : Char) : Prop :=
  c = ('L') ∨ c = ('\x27') ∨ c = (')')

theorem goodLastChar_props (c : Char) (h : goodLastChar c) :
    c ≠ (' ') ∧ c ≠ ('R') ∧ c ≠ ('D') ∧ c ≠ ('E') := by
  rcases h with h | h | h <;> subst h <;> refine ⟨?_, ?_, ?_, ?_⟩ <;> decide

theorem pyTupleStr_getLast (v : List String) :
    (pyTupleStr v).data.getLast? = some (')') := by
  show ((("(" ++ String.intercalate (", ") (v.map pyReprStr)) ++ ")").data).getLast? = some (')')
  rw [strData_append]
  rw [List.getLast?_append_of_ne_nil _ (by decide)]
  rfl

theorem renderValsOr_getLast (v : List String) :
    ∃ c, (renderValsOr v).data.getLast? = some c ∧ goodLastChar c := by
  match v with
  | [] => exact ⟨('L'), by decide, Or.inl rfl⟩
  | [x] =>
    by_cases hx : x = "not null"
    · subst hx
      exact ⟨('L'), by decide, Or.inl rfl⟩
    · refine ⟨('\x27'), ?_, Or.inr (Or.inl rfl)⟩
      simp only [renderValsOr, hx, if_false]
      rw [strData_append]
      rw [List.getLast?_append_of_ne_nil _ (by decide)]
      rfl
  | a :: b :: rest =>
    refine ⟨(')'), ?_, Or.inr (Or.inr rfl)⟩
    show ((" IN " ++ pyTupleStr (a :: b :: rest)).data).getLast? = some (')')
    have hne : (pyTupleStr (a :: b :: rest)).data ≠ [] := by
      intro hnil
      have := pyTupleStr_getLast (a :: b :: rest)
      rw [hnil] at this
      simp at this
    rw [strData_append, List.getLast?_append_of_ne_nil _ hne]
    exact pyTupleStr_getLast _

theorem renderValsAnd_getLast (v : List String) (hv : v ≠ []) :
    ∃ c, (renderValsAnd v).data.getLast? = some c ∧ goodLastChar c := by
  match v with
  | [x] =>
    by_cases hx : x = "not null"
    · subst hx
      exact ⟨('L'), by decide, Or.inl rfl⟩
    · refine ⟨('\x27'), ?_, Or.inr (Or.inl rfl)⟩
      simp only [renderValsAnd, hx, if_false]
      rw [strData_append]
      rw [List.getLast?_append_of_ne_nil _ (by decide)]
      rfl
  | a :: b :: rest =>
    refine ⟨(')'), ?_, Or.inr (Or.inr rfl)⟩
    show ((" IN " ++ pyTupleStr (a :: b :: rest)).data).getLast? = some (')')
    have hne : (pyTupleStr (a :: b :: rest)).data ≠ [] := by
      intro hnil
      have := pyTupleStr_getLast (a :: b :: rest)
      rw [hnil] at this
      simp at this
    rw [strData_append, List.getLast?_append_of_ne_nil _ hne]
    exact pyTupleStr_getLast _

theorem jorCat_concat (cs : List Clause) (c : Clause) :
    jorCat (cs ++ [c]) = jorCat cs ++ jorClause c := by
  show (cs ++ [c]).foldl (fun acc c => acc ++ jorClause c) "" = _
  rw [List.foldl_append]
  rfl

theorem jandCat_concat (cs : List Clause) (c : Clause) :
    jandCat (cs ++ [c]) = jandCat cs ++ jandClause c := by
  show (cs ++ [c]).foldl (fun acc c => acc ++ jandClause c) "" = _
  rw [List.foldl_append]
  rfl

theorem getLast?_ne_nil {l : List Char} {c : Char} (h : l.getLast? = some c) : l ≠ [] := by
  intro hnil
  rw [hnil] at h
  simp at h

theorem data_getLast_append (a b : String) {c : Char} (h : b.data.getLast? = some c) :
    (a ++ b).data.getLast? = some c := by
  rw [strData_append, List.getLast?_append_of_ne_nil _ (getLast?_ne_nil h)]
  exact h

/-- Claim C2 (amended form), proved below; the table-level fact. -/
theorem tableQuery_wellFormed (cfg : QueryConfig) (g : Bool) (t : TableName)
    (h : ∀ c ∈ cfg.where_ t, c.op = Op.and → c.values ≠ []) :
    hasDanglingOp (tableQuery cfg g t) = false ∧
    (cfg.where_ t = [] →
      tableQuery cfg g t = selectPart g (cfg.select t) ++ " FROM " ++ tableNameStr t) := by
  rcases List.eq_nil_or_concat (andGroup (cfg.where_ t)) with hA | ⟨ds, d, hA⟩
  · rcases List.eq_nil_or_concat (orGroup (cfg.where_ t)) with hO | ⟨es, e, hO⟩
    all_goals try rw [List.concat_eq_append] at hO
    · -- both groups empty: the dangling WHERE itself is trimmed
      have hq : tableQuery cfg g t
          = selectPart g (cfg.select t) ++ " FROM " ++ tableNameStr t := by
        unfold tableQuery jorStr jandStr
        rw [hA, hO]
        have hsh : selectPart g (cfg.select t) ++ " FROM " ++ tableNameStr t ++ " WHERE "
              ++ jorCat [] ++ " " ++ jandCat []
            = (selectPart g (cfg.select t) ++ " FROM " ++ tableNameStr t)
              ++ (" WHERE " ++ " ") := by
          show _ ++ " WHERE " ++ "" ++ " " ++ "" = _
          simp [strAppend_assoc, strAppend_empty]
        rw [hsh]
        exact trim_tail _ (" WHERE " ++ " ")
          (('W') :: ('H') :: ('E') :: ('R') :: ('E') :: []) ((' ') :: (' ') :: [])
          (by decide) (by decide) (by decide) (by decide)
      refine ⟨?_, fun _ => hq⟩
      rw [hq]
      cases t with
      | nodes =>
        exact noDangling_of_lastChar _ ('s') (data_getLast_append _ _ (by decide))
          (by decide) (by decide) (by decide) (by decide)
      | ways_line =>
        exact noDangling_of_lastChar _ ('e') (data_getLast_append _ _ (by decide))
          (by decide) (by decide) (by decide) (by decide)
      | ways_poly =>
        exact noDangling_of_lastChar _ ('y') (data_getLast_append _ _ (by decide))
          (by decide) (by decide) (by decide) (by decide)
    · -- AND group empty, OR group ends with clause e
      obtain ⟨c, hlast, hgood⟩ := renderValsOr_getLast e.values
      obtain ⟨hsp, hR, hD, hE⟩ := goodLastChar_props c hgood
      have hq : tableQuery cfg g t
          = (selectPart g (cfg.select t) ++ " FROM " ++ tableNameStr t ++ " WHERE "
              ++ jorCat es ++ "tags->>\x27" ++ e.key ++ "\x27 ") ++ renderValsOr e.values := by
        unfold tableQuery jorStr jandStr
        rw [hA, hO, jorCat_concat]
        have hsh : selectPart g (cfg.select t) ++ " FROM " ++ tableNameStr t ++ " WHERE "
              ++ (jorCat es ++ jorClause e) ++ " " ++ jandCat []
            = ((selectPart g (cfg.select t) ++ " FROM " ++ tableNameStr t ++ " WHERE "
              ++ jorCat es ++ "tags->>\x27" ++ e.key ++ "\x27 ") ++ renderValsOr e.values)
              ++ (" OR " ++ " ") := by
          show _ ++ (jorCat es ++ ("tags->>\x27" ++ e.key ++ "\x27 " ++ renderValsOr e.values ++ " OR ")) ++ " " ++ "" = _
          simp [strAppend_assoc, strAppend_empty]
        rw [hsh]
        exact trim_tail _ (" OR " ++ " ") (('O') :: ('R') :: []) ((' ') :: (' ') :: [])
          (by decide) (by decide) (by decide) (by decide)
      constructor
      · rw [hq]
        exact noDangling_of_lastChar _ c (data_getLast_append _ _ hlast) hsp hR hD hE
      · intro hnil
        rw [hnil] at hO
        exact absurd hO (by simp [orGroup])
  · -- AND group ends with clause d
    rw [List.concat_eq_append] at hA
    have hd : d ∈ andGroup (cfg.where_ t) := by
      rw [hA]
      exact List.mem_append_right _ (by simp)
    have hdw : d ∈ cfg.where_ t ∧ d.op = Op.and := by
      have := List.mem_filter.mp hd
      exact ⟨this.1, by simpa using this.2⟩
    have hval : d.values ≠ [] := h d hdw.1 hdw.2
    obtain ⟨c, hlast, hgood⟩ := renderValsAnd_getLast d.values hval
    obtain ⟨hsp, hR, hD, hE⟩ := goodLastChar_props c hgood
    have hq : tableQuery cfg g t
        = (selectPart g (cfg.select t) ++ " FROM " ++ tableNameStr t ++ " WHERE "
            ++ jorCat (orGroup (cfg.where_ t)) ++ " " ++ jandCat ds
            ++ "tags->>\x27" ++ d.key ++ "\x27 ") ++ renderValsAnd d.values := by
      unfold tableQuery jorStr jandStr
      rw [hA, jandCat_concat]
      have hsh : selectPart g (cfg.select t) ++ " FROM " ++ tableNameStr t ++ " WHERE "
            ++ jorCat (orGroup (cfg.where_ t)) ++ " "
            ++ (jandCat ds ++ jandClause d)
          = ((selectPart g (cfg.select t) ++ " FROM " ++ tableNameStr t ++ " WHERE "
            ++ jorCat (orGroup (cfg.where_ t)) ++ " " ++ jandCat ds
            ++ "tags->>\x27" ++ d.key ++ "\x27 ") ++ renderValsAnd d.values)
            ++ " AND " := by
        show _ ++ (jandCat ds ++ ("tags->>\x27" ++ d.key ++ "\x27 " ++ renderValsAnd d.values ++ " AND ")) = _
        simp [strAppend_assoc]
      rw [hsh]
      exact trim_tail _ (" AND ") (('A') :: ('N') :: ('D') :: []) ((' ') :: [])
        (by decide) (by decide) (by decide) (by decide)
    constructor
    · rw [hq]
      exact noDangling_of_lastChar _ c (data_getLast_append _ _ hlast) hsp hR hD hE
    · intro hnil
      rw [hnil] at hA
      exact absurd hA (by simp [andGroup])

/-! ## Helper lemmas: dict operations and `createJson` filters -/

theorem dictGet?_dictSet_self (d : List (String × α)) (k : String) (v : α) :
    dictGet? (dictSet d k v) k = some v := by
  induction d with
  | nil => simp [dictSet, dictGet?]
  | cons p d ih =>
    by_cases hp : p.1 = k
    · simp [dictSet, hp, dictGet?]
    · simp [dictSet, hp, dictGet?, ih]

theorem dictGet?_dictSet_ne (d : List (String × α)) (k k' : String) (v : α) (h : k' ≠ k) :
    dictGet? (dictSet d k v) k' = dictGet? d k' := by
  induction d with
  | nil =>
    simp only [dictSet, dictGet?]
    exact if_neg (Ne.symm h)
  | cons p d ih =>
    by_cases hp : p.1 = k
    · simp only [dictSet, if_pos hp, dictGet?]
      rw [if_neg (Ne.symm h), if_neg (by rw [hp]; exact Ne.symm h)]
    · simp only [dictSet, if_neg hp, dictGet?]
      by_cases hpk : p.1 = k'
      · rw [if_pos hpk, if_pos hpk]
      · rw [if_neg hpk, if_neg hpk]
        exact ih

theorem dictSet_fresh (d : List (String × α)) (k : String) (v : α)
    (h : ∀ q ∈ d, q.1 ≠ k) : dictSet d k v = d ++ [(k, v)] := by
  induction d with
  | nil => rfl
  | cons p d ih =>
    have hp : p.1 ≠ k := h p (List.mem_cons_self _ _)
    simp [dictSet, hp]
    exact ih (fun q hq => h q (List.mem_cons_of_mem _ hq))

/-- Folding `applyClause` over clauses whose keys all differ from `k`
leaves the entries at `k` untouched. -/
theorem foldApply_other (cs : List Clause) (m : JoinMaps) (k : String)
    (hk : ∀ c ∈ cs, c.key ≠ k) :
    dictGet? ((cs.foldl applyClause m).join_or) k = dictGet? m.join_or k ∧
    dictGet? ((cs.foldl applyClause m).join_and) k = dictGet? m.join_and k := by
  induction cs generalizing m with
  | nil => exact ⟨rfl, rfl⟩
  | cons c cs ih =>
    have hc : c.key ≠ k := hk c (List.mem_cons_self _ _)
    have hrest : ∀ x ∈ cs, x.key ≠ k := fun x hx => hk x (List.mem_cons_of_mem _ hx)
    have := ih (applyClause m c) hrest
    rw [List.foldl_cons]
    refine ⟨this.1.trans ?_, this.2.trans ?_⟩ <;>
      unfold applyClause <;> split <;>
      simp [dictGet?_dictSet_ne _ _ _ _ (fun he => hc he.symm)]

/-- The filters recorded for one clause after folding a whole clause
list, provided the keys in the list are distinct. -/
theorem foldApply_lookup (cs : List Clause) (m : JoinMaps) (c : Clause)
    (hc : c ∈ cs) (hnd : (cs.map Clause.key).Nodup) :
    (("not null") ∈ c.values →
      dictGet? ((cs.foldl applyClause m).join_or) c.key = some [] ∧
      dictGet? ((cs.foldl applyClause m).join_and) c.key = some []) ∧
    (("not null") ∉ c.values →
      dictGet? ((cs.foldl applyClause m).join_or) c.key = some c.values ∧
      dictGet? ((cs.foldl applyClause m).join_and) c.key = some c.values) := by
  induction cs generalizing m with
  | nil => cases hc
  | cons a cs ih =>
    rw [List.map_cons, List.nodup_cons] at hnd
    rcases List.mem_cons.mp hc with rfl | hmem
    · have hother : ∀ x ∈ cs, x.key ≠ c.key := by
        intro x hx he
        exact hnd.1 (he ▸ List.mem_map_of_mem Clause.key hx)
      rw [List.foldl_cons]
      have hpres := foldApply_other cs (applyClause m c) c.key hother
      constructor <;> intro hmemv
      · rw [hpres.1, hpres.2]
        unfold applyClause
        rw [if_pos hmemv]
        exact ⟨dictGet?_dictSet_self _ _ _, dictGet?_dictSet_self _ _ _⟩
      · rw [hpres.1, hpres.2]
        unfold applyClause
        rw [if_neg hmemv]
        exact ⟨dictGet?_dictSet_self _ _ _, dictGet?_dictSet_self _ _ _⟩
    · rw [List.foldl_cons]
      exact ih (applyClause m a) hmem hnd.2

/-! ## Helper lemmas: the polling loop -/

/-- With only `PENDING`/`SUCCESS` statuses, 601 iterations are enough
for the loop to exit: each `PENDING` advances the clock by at least 2
seconds and the budget is 600. -/
theorem pollLoop_exits (resp : Nat → String)
    (hres : ∀ j, resp j = "PENDING" ∨ resp j = "SUCCESS") :
    ∀ fuel k elapsed interval, 2 ≤ interval → 604 ≤ elapsed + 2 * fuel → 1 ≤ fuel →
      pollLoop resp fuel k elapsed interval ≠ RemoteResult.outOfFuel := by
  intro fuel
  induction fuel with
  | zero => omega
  | succ n ih =>
    intro k elapsed interval hint hbud _
    rw [pollLoop]
    by_cases hend : elapsed < 600
    · rw [if_pos hend]
      rcases hres k with hp | hs
      · rw [if_pos hp]
        have hint2 : 2 ≤ (if 60 < elapsed then 10 else interval) := by
          by_cases h60 : 60 < elapsed
          · rw [if_pos h60]
            omega
          · rw [if_neg h60]
            exact hint
        exact ih (k + 1) (elapsed + (if 60 < elapsed then 10 else interval))
          (if 60 < elapsed then 10 else interval) hint2 (by omega) (by omega)
      · rw [if_neg (by simp [hs]), if_pos hs]
        simp
    · rw [if_neg hend]
      simp

/-- The loop only looks at the status stream, pointwise. -/
theorem pollLoop_congr (resp resp' : Nat → String) (h : ∀ j, resp j = resp' j) :
    ∀ fuel k elapsed interval,
      pollLoop resp fuel k elapsed interval = pollLoop resp' fuel k elapsed interval := by
  intro fuel
  induction fuel with
  | zero => intro _ _ _; rfl
  | succ n ih =>
    intro k elapsed interval
    rw [pollLoop, pollLoop, h k]
    by_cases h1 : elapsed < 600
    · rw [if_pos h1, if_pos h1]
      by_cases h2 : resp' k = "PENDING"
      · rw [if_pos h2, if_pos h2]
        exact ih _ _ _
      · rw [if_neg h2, if_neg h2]
        by_cases h3 : resp' k = "SUCCESS"
        · rw [if_pos h3, if_pos h3]
        · rw [if_neg h3, if_neg h3]
          exact ih _ _ _
    · rw [if_neg h1, if_neg h1]

/-! ## Helper lemmas: the SELECT clause and row decoding -/

theorem pyDropLast2_comma (y : String) : pyDropLast2 (y ++ ", ") = y := by
  have hd : (y ++ ", ").data = (y.data ++ ([','])) ++ ([' ']) := by
    rw [strData_append]
    simp [List.append_assoc]
  show String.mk _ = y
  rw [hd, List.dropLast_concat, List.dropLast_concat, strMk_data]

/-- The string built by the select loop before the `[:-2]` trim: the
base projection plus one `", "`-terminated block per entry. -/
theorem select_fold_shape (base : String) (es : List (String × String)) :
    base ++ ", osm_id, version, "
        ++ es.foldl (fun acc e => acc ++ "tags->>\x27" ++ e.1 ++ "\x27, ") ""
      = (base ++ ", osm_id, version"
          ++ String.join (es.map (fun e => ", tags->>\x27" ++ e.1 ++ "\x27"))) ++ ", " := by
  induction es using List.reverseRecOn with
  | nil =>
    show _ ++ "" = _
    rw [strAppend_empty, List.map_nil]
    show _ = _ ++ "" ++ ", "
    rw [strAppend_empty]
    rw [strAppend_assoc]
    congr 1
  | append_singleton es e ih =>
    rw [List.foldl_append]
    show base ++ ", osm_id, version, "
        ++ (es.foldl (fun acc e => acc ++ "tags->>\x27" ++ e.1 ++ "\x27, ") ""
            ++ "tags->>\x27" ++ e.1 ++ "\x27, ") = _
    rw [List.map_append, List.map_cons, List.map_nil]
    have hjoin : String.join ((es.map (fun e => ", tags->>\x27" ++ e.1 ++ "\x27"))
          ++ [", tags->>\x27" ++ e.1 ++ "\x27"])
        = String.join (es.map (fun e => ", tags->>\x27" ++ e.1 ++ "\x27"))
          ++ (", tags->>\x27" ++ e.1 ++ "\x27") := by
      show List.foldl _ _ _ = _
      rw [List.foldl_append]
      rfl
    rw [hjoin]
    have lhs_eq : base ++ ", osm_id, version, "
        ++ (es.foldl (fun acc e => acc ++ "tags->>\x27" ++ e.1 ++ "\x27, ") ""
            ++ "tags->>\x27" ++ e.1 ++ "\x27, ")
        = (base ++ ", osm_id, version, "
            ++ es.foldl (fun acc e => acc ++ "tags->>\x27" ++ e.1 ++ "\x27, ") "")
          ++ "tags->>\x27" ++ e.1 ++ "\x27, " := by
      simp [strAppend_assoc]
    rw [lhs_eq, ih]
    have m2 : ("\x27, " : String) = "\x27" ++ ", " := by decide
    have m1 : (", " : String) ++ "tags->>\x27" = ", tags->>\x27" := by decide
    rw [m2]
    rw [show ((base ++ ", osm_id, version"
          ++ String.join (es.map (fun e => ", tags->>\x27" ++ e.1 ++ "\x27"))) ++ ", ")
          ++ "tags->>\x27" ++ e.1 ++ ("\x27" ++ ", ")
        = (base ++ ", osm_id, version"
          ++ String.join (es.map (fun e => ", tags->>\x27" ++ e.1 ++ "\x27")))
          ++ ((", " ++ "tags->>\x27") ++ e.1 ++ "\x27") ++ ", " from by
      simp [strAppend_assoc]]
    rw [m1]
    simp [strAppend_assoc]

/-- The `selectPart` string characterised: geometry projection, `osm_id`,
`version`, then the selected attributes in declaration order. -/
theorem selectPart_eq (g : Bool) (es : List (String × String)) :
    selectPart g es
      = (if g then "SELECT ST_AsText(geom)" else "SELECT ST_AsText(ST_Centroid(geom))")
        ++ ", osm_id, version"
        ++ String.join (es.map (fun e => ", tags->>\x27" ++ e.1 ++ "\x27")) := by
  unfold selectPart
  rw [select_fold_shape]
  exact pyDropLast2_comma _

theorem decodeLoop_zip (item : List (Option String)) :
    ∀ (es : List (String × String)) (i : Nat) (tags : List (String × Option String)),
      (es.map Prod.fst).Nodup →
      (∀ e ∈ es, ∀ q ∈ tags, e.1 ≠ q.1) →
      i ≤ item.length →
      decodeLoop item es i tags
        = tags ++ ((es.map Prod.fst).zip (item.drop i)).filterMap
            (fun p => p.2.map (fun v => (p.1, some v))) := by
  intro es
  induction es with
  | nil => intro i tags _ _ _; simp [decodeLoop]
  | cons e es ih =>
    intro i tags hnd hfresh hle
    rw [List.map_cons, List.nodup_cons] at hnd
    rw [decodeLoop]
    by_cases hi : i = item.length
    · rw [if_pos hi]
      have : item.drop i = [] := by
        rw [hi]
        simp
      rw [this]
      simp
    · rw [if_neg hi]
      have hlt : i < item.length := lt_of_le_of_ne hle hi
      have hdrop : item.drop i = item.getD i none :: item.drop (i + 1) := by
        rw [List.getD_eq_getElem item none hlt]
        exact List.drop_eq_getElem_cons hlt
      rw [hdrop]
      cases hcell : item.getD i none with
      | some v =>
        dsimp only
        have hfr : ∀ q ∈ tags, e.1 ≠ q.1 := hfresh e (List.mem_cons_self _ _)
        have hset : dictSet tags e.1 (some v) = tags ++ [(e.1, some v)] :=
          dictSet_fresh _ _ _ (fun q hq he => hfr q hq he.symm)
        rw [hset]
        rw [ih (i + 1) (tags ++ [(e.1, some v)]) hnd.2 ?fresh2 hlt]
        · simp [List.zip_cons_cons, List.filterMap_cons, List.append_assoc]
        case fresh2 =>
          intro x hx q hq
          rcases List.mem_append.mp hq with hq | hq
          · exact hfresh x (List.mem_cons_of_mem _ hx) q hq
          · rw [List.mem_singleton.mp hq]
            intro he
            exact hnd.1 (he ▸ List.mem_map_of_mem Prod.fst hx)
      | none =>
        dsimp only
        rw [ih (i + 1) tags hnd.2 (fun x hx => hfresh x (List.mem_cons_of_mem _ hx)) hlt]
        simp [List.zip_cons_cons, List.filterMap_cons]

/-! ## Helper lemmas: `uriParser` -/

theorem findIdxFrom_none (c : Char) : ∀ (l : List Char), (∀ x ∈ l, x ≠ c) →
    findIdxFrom c l = none := by
  intro l
  induction l with
  | nil => intro _; rfl
  | cons x xs ih =>
    intro h
    rw [findIdxFrom, if_neg (h x (List.mem_cons_self _ _)), ih (fun y hy => h y (List.mem_cons_of_mem _ hy))]
    rfl

theorem findIdxFrom_pref (c : Char) : ∀ (l₁ l₂ : List Char), (∀ x ∈ l₁, x ≠ c) →
    findIdxFrom c (l₁ ++ c :: l₂) = some l₁.length := by
  intro l₁
  induction l₁ with
  | nil =>
    intro l₂ _
    rw [List.nil_append, findIdxFrom, if_pos rfl]
    rfl
  | cons x xs ih =>
    intro l₂ h
    rw [List.cons_append, findIdxFrom, if_neg (h x (List.mem_cons_self _ _)),
      ih l₂ (fun y hy => h y (List.mem_cons_of_mem _ hy))]
    rfl

theorem pyFind_none (s : String) (c : Char) (h : findIdxFrom c s.data = none) :
    pyFind s c = -1 := by
  unfold pyFind
  rw [h]

theorem pyFind_some (s : String) (c : Char) (i : Nat) (h : findIdxFrom c s.data = some i) :
    pyFind s c = (i : Int) := by
  unfold pyFind
  rw [h]

theorem pyRfind_none (s : String) (c : Char) (h : findIdxFrom c s.data.reverse = none) :
    pyRfind s c = -1 := by
  unfold pyRfind
  rw [h]

theorem pyRfind_some (s : String) (c : Char) (i : Nat)
    (h : findIdxFrom c s.data.reverse = some i) :
    pyRfind s c = ((s.data.length - 1 - i : Nat) : Int) := by
  unfold pyRfind
  rw [h]

theorem data_ne_nil {s : String} (h : s ≠ "") : s.data ≠ [] := by
  intro hd
  apply h
  rw [← strMk_data s, hd]

theorem length_pos_of_ne {s : String} (h : s ≠ "") : 0 < s.data.length :=
  List.length_pos.mpr (data_ne_nil h)

/-- Shape 1: a bare separator-free name. -/
theorem uriParser_shape1 (n : String) (hn : sepFree n) :
    uriParser n = ⟨some n, some "localhost", none, none, none⟩ := by
  have hc : pyFind n (':') = -1 :=
    pyFind_none _ _ (findIdxFrom_none _ _ (fun x hx => (hn x hx).1))
  have hrc : pyRfind n (':') = -1 :=
    pyRfind_none _ _ (findIdxFrom_none _ _ (fun x hx => (hn x (List.mem_reverse.mp hx)).1))
  have ha : pyFind n ('@') = -1 :=
    pyFind_none _ _ (findIdxFrom_none _ _ (fun x hx => (hn x hx).2.1))
  have hs : pyFind n ('/') = -1 :=
    pyFind_none _ _ (findIdxFrom_none _ _ (fun x hx => (hn x hx).2.2))
  unfold uriParser
  rw [hc, hrc, ha, hs]
  norm_num

/-- Shape 2: `user@host/name`. -/
theorem uriParser_shape2 (u ho n : String) (hu : sepFree u) (hh : sepFree ho)
    (hn : sepFree n) (hune : u ≠ "") (hhne : ho ≠ "") :
    uriParser (u ++ "@" ++ ho ++ "/" ++ n) = ⟨some n, some ho, some u, none, none⟩ := by
  have hdata : (u ++ "@" ++ ho ++ "/" ++ n).data
      = u.data ++ ('@') :: (ho.data ++ ('/') :: n.data) := by
    simp only [strData_append]
    simp [List.append_assoc]
  have hrev : (u ++ "@" ++ ho ++ "/" ++ n).data.reverse
      = n.data.reverse ++ ('/') :: (ho.data.reverse ++ ('@') :: u.data.reverse) := by
    rw [hdata]
    simp [List.reverse_append, List.append_assoc]
  have hmem : ∀ x ∈ u.data ++ ('@') :: (ho.data ++ ('/') :: n.data),
      x ∈ u.data ∨ x = ('@') ∨ x ∈ ho.data ∨ x = ('/') ∨ x ∈ n.data := by
    intro x hx
    simp only [List.mem_append, List.mem_cons] at hx
    tauto
  have hc : pyFind (u ++ "@" ++ ho ++ "/" ++ n) (':') = -1 := by
    apply pyFind_none
    rw [hdata]
    apply findIdxFrom_none
    intro x hx
    rcases hmem x hx with hx | rfl | hx | rfl | hx
    · exact (hu x hx).1
    · decide
    · exact (hh x hx).1
    · decide
    · exact (hn x hx).1
  have hrc : pyRfind (u ++ "@" ++ ho ++ "/" ++ n) (':') = -1 := by
    apply pyRfind_none
    rw [hrev]
    apply findIdxFrom_none
    intro x hx
    simp only [List.mem_append, List.mem_cons, List.mem_reverse] at hx
    rcases hx with hx | rfl | hx | rfl | hx
    · exact (hn x hx).1
    · decide
    · exact (hh x hx).1
    · decide
    · exact (hu x hx).1
  have ha : pyFind (u ++ "@" ++ ho ++ "/" ++ n) ('@') = (u.data.length : Int) := by
    apply pyFind_some
    rw [hdata]
    exact findIdxFrom_pref _ _ _ (fun x hx => (hu x hx).2.1)
  have hs : pyFind (u ++ "@" ++ ho ++ "/" ++ n) ('/')
      = ((u.data.length + 1 + ho.data.length : Nat) : Int) := by
    apply pyFind_some
    rw [hdata]
    rw [show u.data ++ ('@') :: (ho.data ++ ('/') :: n.data)
        = (u.data ++ ('@') :: ho.data) ++ ('/') :: n.data by simp]
    rw [findIdxFrom_pref _ _ _ ?hnoslash]
    · simp
      omega
    case hnoslash =>
      intro x hx
      simp only [List.mem_append, List.mem_cons] at hx
      rcases hx with hx | rfl | hx
      · exact (hu x hx).2.2
      · decide
      · exact (hh x hx).2.2
  have hupos : 0 < u.data.length := length_pos_of_ne hune
  have cond1 : ¬((-1 : Int) < 0 ∧ ((u.data.length : Nat) : Int) < 0
      ∧ ((u.data.length + 1 + ho.data.length : Nat) : Int) < 0) := by omega
  have cond2 : (0 : Int) < ((u.data.length + 1 + ho.data.length : Nat) : Int) := by omega
  have cond3 : ¬((0 : Int) < (-1 : Int)) := by omega
  have cond4 : ((-1 : Int) < 0 ∧ (0 : Int) < ((u.data.length : Nat) : Int)) := by omega
  have cond5 : (0 : Int) < ((u.data.length : Nat) : Int) := by omega
  have cond6 : ¬(((u.data.length : Nat) : Int) < (-1 : Int)) := by omega
  have cond7 : ¬(((u.data.length : Nat) : Int) < 0) := by omega
  unfold uriParser
  rw [hc, hrc, ha, hs]
  simp only [cond1, cond2, cond3, cond4, cond5, cond6, cond7, if_true, if_false,
    false_and, and_false, and_true, true_and, if_neg, if_pos, not_false_eq_true,
    eq_self_iff_true]
  have hname : pySliceFrom (u ++ "@" ++ ho ++ "/" ++ n)
      (((u.data.length + 1 + ho.data.length : Nat) : Int) + 1) = n := by
    unfold pySliceFrom
    rw [hdata]
    rw [show ((((u.data.length + 1 + ho.data.length : Nat) : Int) + 1).toNat)
        = (u.data ++ ('@') :: (ho.data ++ ('/') :: [])).length from by
      simp only [List.length_append, List.length_cons, List.length_nil]
      omega]
    rw [show u.data ++ ('@') :: (ho.data ++ ('/') :: n.data)
        = (u.data ++ ('@') :: (ho.data ++ ('/') :: [])) ++ n.data from by simp]
    rw [List.drop_left, strMk_data]
  have huser : pySliceTo (u ++ "@" ++ ho ++ "/" ++ n) ((u.data.length : Nat) : Int) = u := by
    unfold pySliceTo
    rw [hdata]
    rw [show (((u.data.length : Nat) : Int).toNat) = u.data.length from by omega]
    rw [List.take_left, strMk_data]
  have hhost : pySlice (u ++ "@" ++ ho ++ "/" ++ n) (((u.data.length : Nat) : Int) + 1)
      (((u.data.length + 1 + ho.data.length : Nat) : Int)) = ho := by
    unfold pySlice
    rw [hdata]
    rw [show ((((u.data.length : Nat) : Int) + 1).toNat) = (u.data ++ ('@') :: []).length from by
      simp only [List.length_append, List.length_cons, List.length_nil]
      omega]
    rw [show u.data ++ ('@') :: (ho.data ++ ('/') :: n.data)
        = (u.data ++ ('@') :: []) ++ (ho.data ++ ('/') :: n.data) from by simp]
    rw [List.drop_left]
    rw [show (((u.data.length + 1 + ho.data.length : Nat) : Int).toNat
        - (u.data ++ ('@') :: []).length) = ho.data.length from by
      simp only [List.length_append, List.length_cons, List.length_nil]
      omega]
    rw [show (ho.data ++ ('/') :: n.data).take ho.data.length = ho.data from
      List.take_left _ _]
  rw [hname, huser, hhost]
  rw [if_neg ?hostne]
  case hostne =>
    simp only [not_or]
    refine ⟨by simp, ?_⟩
    intro hcontra
    exact hhne (Option.some.inj hcontra)

/-- Shape 4: the legacy two-segment `user:pass/name` form.  Note the
parser also sets the port to the password substring, because the lone
colon is simultaneously the last colon and `rcolon > atsign` holds
vacuously with no `@` present. -/
theorem uriParser_shape4 (u p n : String) (hu : sepFree u) (hp : sepFree p)
    (hn : sepFree n) (hune : u ≠ "") :
    uriParser (u ++ ":" ++ p ++ "/" ++ n)
      = ⟨some n, some "localhost", some u, some p, some p⟩ := by
  have hdata : (u ++ ":" ++ p ++ "/" ++ n).data
      = u.data ++ (':') :: (p.data ++ ('/') :: n.data) := by
    simp only [strData_append]
    simp [List.append_assoc]
  have hrev : (u ++ ":" ++ p ++ "/" ++ n).data.reverse
      = (n.data.reverse ++ ('/') :: p.data.reverse) ++ (':') :: u.data.reverse := by
    rw [hdata]
    simp [List.reverse_append, List.append_assoc]
  have hc : pyFind (u ++ ":" ++ p ++ "/" ++ n) (':') = ((u.data.length : Nat) : Int) := by
    apply pyFind_some
    rw [hdata]
    exact findIdxFrom_pref _ _ _ (fun x hx => (hu x hx).1)
  have hrc : pyRfind (u ++ ":" ++ p ++ "/" ++ n) (':') = ((u.data.length : Nat) : Int) := by
    rw [pyRfind_some (u ++ ":" ++ p ++ "/" ++ n) (':')
      ((n.data.reverse ++ ('/') :: p.data.reverse).length) ?hfind]
    · congr 1
      rw [hdata]
      simp only [List.length_append, List.length_cons, List.length_reverse]
      omega
    case hfind =>
      rw [hrev]
      apply findIdxFrom_pref
      intro x hx
      simp only [List.mem_append, List.mem_cons, List.mem_reverse] at hx
      rcases hx with hx | rfl | hx
      · exact (hn x hx).1
      · decide
      · exact (hp x hx).1
  have ha : pyFind (u ++ ":" ++ p ++ "/" ++ n) ('@') = -1 := by
    apply pyFind_none
    rw [hdata]
    apply findIdxFrom_none
    intro x hx
    simp only [List.mem_append, List.mem_cons] at hx
    rcases hx with hx | rfl | hx | rfl | hx
    · exact (hu x hx).2.1
    · decide
    · exact (hp x hx).2.1
    · decide
    · exact (hn x hx).2.1
  have hs : pyFind (u ++ ":" ++ p ++ "/" ++ n) ('/')
      = ((u.data.length + 1 + p.data.length : Nat) : Int) := by
    apply pyFind_some
    rw [hdata]
    rw [show u.data ++ (':') :: (p.data ++ ('/') :: n.data)
        = (u.data ++ (':') :: p.data) ++ ('/') :: n.data from by simp]
    rw [findIdxFrom_pref _ _ _ ?hnosl]
    · simp
      omega
    case hnosl =>
      intro x hx
      simp only [List.mem_append, List.mem_cons] at hx
      rcases hx with hx | rfl | hx
      · exact (hu x hx).2.2
      · decide
      · exact (hp x hx).2.2
  have hupos : 0 < u.data.length := length_pos_of_ne hune
  have hname : pySliceFrom (u ++ ":" ++ p ++ "/" ++ n)
      (((u.data.length + 1 + p.data.length : Nat) : Int) + 1) = n := by
    unfold pySliceFrom
    rw [hdata]
    rw [show ((((u.data.length + 1 + p.data.length : Nat) : Int) + 1).toNat)
        = (u.data ++ (':') :: (p.data ++ ('/') :: [])).length from by
      simp only [List.length_append, List.length_cons, List.length_nil]
      omega]
    rw [show u.data ++ (':') :: (p.data ++ ('/') :: n.data)
        = (u.data ++ (':') :: (p.data ++ ('/') :: [])) ++ n.data from by simp]
    rw [List.drop_left]
  have huser : pySliceTo (u ++ ":" ++ p ++ "/" ++ n) ((u.data.length : Nat) : Int) = u := by
    unfold pySliceTo
    rw [hdata]
    rw [show (((u.data.length : Nat) : Int).toNat) = u.data.length from by omega]
    rw [List.take_left]
  have hpass : pySlice (u ++ ":" ++ p ++ "/" ++ n) (((u.data.length : Nat) : Int) + 1)
      (((u.data.length + 1 + p.data.length : Nat) : Int)) = p := by
    unfold pySlice
    rw [hdata]
    rw [show ((((u.data.length : Nat) : Int) + 1).toNat) = (u.data ++ (':') :: []).length from by
      simp only [List.length_append, List.length_cons, List.length_nil]
      omega]
    rw [show u.data ++ (':') :: (p.data ++ ('/') :: n.data)
        = (u.data ++ (':') :: []) ++ (p.data ++ ('/') :: n.data) from by simp]
    rw [List.drop_left]
    rw [show (((u.data.length + 1 + p.data.length : Nat) : Int).toNat
        - (u.data ++ (':') :: []).length) = p.data.length from by
      simp only [List.length_append, List.length_cons, List.length_nil]
      omega]
    rw [show (p.data ++ ('/') :: n.data).take p.data.length = p.data from
      List.take_left _ _]
  have c1 : ¬(((u.data.length : Nat) : Int) < 0) := by omega
  have c2 : (0 : Int) < ((u.data.length : Nat) : Int) := by omega
  have c3 : (0 : Int) < ((u.data.length + 1 + p.data.length : Nat) : Int) := by omega
  have c4 : ¬((0 : Int) < (-1 : Int)) := by omega
  have c5 : (-1 : Int) < ((u.data.length : Nat) : Int) := by omega
  have c6 : (-1 : Int) < (0 : Int) := by omega
  unfold uriParser
  rw [hc, hrc, ha, hs]
  simp only [c1, c2, c3, c4, c5, c6, if_true, if_false, false_and, and_false, and_true,
    true_and, not_false_eq_true, hname, huser, hpass]
  simp

/-- Shape 3: the full `user:pass@host:port/name` form. -/
theorem uriParser_shape3 (u p ho po n : String) (hu : sepFree u) (hp : sepFree p)
    (hh : sepFree ho) (hpo : sepFree po) (hn : sepFree n)
    (hune : u ≠ "") (hhne : ho ≠ "") :
    uriParser (u ++ ":" ++ p ++ "@" ++ ho ++ ":" ++ po ++ "/" ++ n)
      = ⟨some n, some ho, some u, some p, some po⟩ := by
  have hdata : (u ++ ":" ++ p ++ "@" ++ ho ++ ":" ++ po ++ "/" ++ n).data
      = u.data ++ (':') :: (p.data ++ ('@')
          :: (ho.data ++ (':') :: (po.data ++ ('/') :: n.data))) := by
    simp only [strData_append]
    simp [List.append_assoc]
  have hrev : (u ++ ":" ++ p ++ "@" ++ ho ++ ":" ++ po ++ "/" ++ n).data.reverse
      = (n.data.reverse ++ ('/') :: po.data.reverse) ++ (':')
          :: (ho.data.reverse ++ ('@') :: (p.data.reverse ++ (':') :: u.data.reverse)) := by
    rw [hdata]
    simp [List.reverse_append, List.append_assoc]
  have hc : pyFind (u ++ ":" ++ p ++ "@" ++ ho ++ ":" ++ po ++ "/" ++ n) (':')
      = ((u.data.length : Nat) : Int) := by
    apply pyFind_some
    rw [hdata]
    exact findIdxFrom_pref _ _ _ (fun x hx => (hu x hx).1)
  have hrc : pyRfind (u ++ ":" ++ p ++ "@" ++ ho ++ ":" ++ po ++ "/" ++ n) (':')
      = ((u.data.length + 1 + p.data.length + 1 + ho.data.length : Nat) : Int) := by
    rw [pyRfind_some (u ++ ":" ++ p ++ "@" ++ ho ++ ":" ++ po ++ "/" ++ n) (':')
      ((n.data.reverse ++ ('/') :: po.data.reverse).length) ?hfind3]
    · congr 1
      rw [hdata]
      simp only [List.length_append, List.length_cons, List.length_reverse]
      omega
    case hfind3 =>
      rw [hrev]
      apply findIdxFrom_pref
      intro x hx
      simp only [List.mem_append, List.mem_cons, List.mem_reverse] at hx
      rcases hx with hx | rfl | hx
      · exact (hn x hx).1
      · decide
      · exact (hpo x hx).1
  have ha : pyFind (u ++ ":" ++ p ++ "@" ++ ho ++ ":" ++ po ++ "/" ++ n) ('@')
      = ((u.data.length + 1 + p.data.length : Nat) : Int) := by
    apply pyFind_some
    rw [hdata]
    rw [show u.data ++ (':') :: (p.data ++ ('@')
          :: (ho.data ++ (':') :: (po.data ++ ('/') :: n.data)))
        = (u.data ++ (':') :: p.data) ++ ('@')
          :: (ho.data ++ (':') :: (po.data ++ ('/') :: n.data)) from by simp]
    rw [findIdxFrom_pref _ _ _ ?hnoat]
    · simp
      omega
    case hnoat =>
      intro x hx
      simp only [List.mem_append, List.mem_cons] at hx
      rcases hx with hx | rfl | hx
      · exact (hu x hx).2.1
      · decide
      · exact (hp x hx).2.1
  have hs : pyFind (u ++ ":" ++ p ++ "@" ++ ho ++ ":" ++ po ++ "/" ++ n) ('/')
      = ((u.data.length + 1 + p.data.length + 1 + ho.data.length + 1
          + po.data.length : Nat) : Int) := by
    apply pyFind_some
    rw [hdata]
    rw [show u.data ++ (':') :: (p.data ++ ('@')
          :: (ho.data ++ (':') :: (po.data ++ ('/') :: n.data)))
        = (u.data ++ (':') :: (p.data ++ ('@') :: (ho.data ++ (':') :: po.data)))
          ++ ('/') :: n.data from by simp]
    rw [findIdxFrom_pref _ _ _ ?hnosl3]
    · simp
      omega
    case hnosl3 =>
      intro x hx
      simp only [List.mem_append, List.mem_cons] at hx
      rcases hx with hx | rfl | hx | rfl | hx | rfl | hx
      · exact (hu x hx).2.2
      · decide
      · exact (hp x hx).2.2
      · decide
      · exact (hh x hx).2.2
      · decide
      · exact (hpo x hx).2.2
  have hupos : 0 < u.data.length := length_pos_of_ne hune
  have hname : pySliceFrom (u ++ ":" ++ p ++ "@" ++ ho ++ ":" ++ po ++ "/" ++ n)
      (((u.data.length + 1 + p.data.length + 1 + ho.data.length + 1
        + po.data.length : Nat) : Int) + 1) = n := by
    unfold pySliceFrom
    rw [hdata]
    rw [show ((((u.data.length + 1 + p.data.length + 1 + ho.data.length + 1
          + po.data.length : Nat) : Int) + 1).toNat)
        = (u.data ++ (':') :: (p.data ++ ('@')
            :: (ho.data ++ (':') :: (po.data ++ ('/') :: [])))).length from by
      simp only [List.length_append, List.length_cons, List.length_nil]
      omega]
    rw [show u.data ++ (':') :: (p.data ++ ('@')
          :: (ho.data ++ (':') :: (po.data ++ ('/') :: n.data)))
        = (u.data ++ (':') :: (p.data ++ ('@')
            :: (ho.data ++ (':') :: (po.data ++ ('/') :: [])))) ++ n.data from by simp]
    rw [List.drop_left]
  have huser : pySliceTo (u ++ ":" ++ p ++ "@" ++ ho ++ ":" ++ po ++ "/" ++ n)
      ((u.data.length : Nat) : Int) = u := by
    unfold pySliceTo
    rw [hdata]
    rw [show (((u.data.length : Nat) : Int).toNat) = u.data.length from by omega]
    rw [List.take_left]
  have hpass : pySlice (u ++ ":" ++ p ++ "@" ++ ho ++ ":" ++ po ++ "/" ++ n)
      (((u.data.length : Nat) : Int) + 1)
      (((u.data.length + 1 + p.data.length : Nat) : Int)) = p := by
    unfold pySlice
    rw [hdata]
    rw [show ((((u.data.length : Nat) : Int) + 1).toNat)
        = (u.data ++ (':') :: []).length from by
      simp only [List.length_append, List.length_cons, List.length_nil]
      omega]
    rw [show u.data ++ (':') :: (p.data ++ ('@')
          :: (ho.data ++ (':') :: (po.data ++ ('/') :: n.data)))
        = (u.data ++ (':') :: []) ++ (p.data ++ ('@')
          :: (ho.data ++ (':') :: (po.data ++ ('/') :: n.data))) from by simp]
    rw [List.drop_left]
    rw [show (((u.data.length + 1 + p.data.length : Nat) : Int).toNat
        - (u.data ++ (':') :: []).length) = p.data.length from by
      simp only [List.length_append, List.length_cons, List.length_nil]
      omega]
    rw [show (p.data ++ ('@') :: (ho.data ++ (':') :: (po.data ++ ('/') :: n.data))).take
        p.data.length = p.data from List.take_left _ _]
  have hhost : pySlice (u ++ ":" ++ p ++ "@" ++ ho ++ ":" ++ po ++ "/" ++ n)
      (((u.data.length + 1 + p.data.length : Nat) : Int) + 1)
      (((u.data.length + 1 + p.data.length + 1 + ho.data.length : Nat) : Int)) = ho := by
    unfold pySlice
    rw [hdata]
    rw [show ((((u.data.length + 1 + p.data.length : Nat) : Int) + 1).toNat)
        = (u.data ++ (':') :: (p.data ++ ('@') :: [])).length from by
      simp only [List.length_append, List.length_cons, List.length_nil]
      omega]
    rw [show u.data ++ (':') :: (p.data ++ ('@')
          :: (ho.data ++ (':') :: (po.data ++ ('/') :: n.data)))
        = (u.data ++ (':') :: (p.data ++ ('@') :: []))
          ++ (ho.data ++ (':') :: (po.data ++ ('/') :: n.data)) from by simp]
    rw [List.drop_left]
    rw [show (((u.data.length + 1 + p.data.length + 1 + ho.data.length : Nat) : Int).toNat
        - (u.data ++ (':') :: (p.data ++ ('@') :: [])).length) = ho.data.length from by
      simp only [List.length_append, List.length_cons, List.length_nil]
      omega]
    rw [show (ho.data ++ (':') :: (po.data ++ ('/') :: n.data)).take ho.data.length
        = ho.data from List.take_left _ _]
  have hport : pySlice (u ++ ":" ++ p ++ "@" ++ ho ++ ":" ++ po ++ "/" ++ n)
      (((u.data.length + 1 + p.data.length + 1 + ho.data.length : Nat) : Int) + 1)
      (((u.data.length + 1 + p.data.length + 1 + ho.data.length + 1
        + po.data.length : Nat) : Int)) = po := by
    unfold pySlice
    rw [hdata]
    rw [show ((((u.data.length + 1 + p.data.length + 1 + ho.data.length : Nat) : Int)
          + 1).toNat)
        = (u.data ++ (':') :: (p.data ++ ('@') :: (ho.data ++ (':') :: []))).length from by
      simp only [List.length_append, List.length_cons, List.length_nil]
      omega]
    rw [show u.data ++ (':') :: (p.data ++ ('@')
          :: (ho.data ++ (':') :: (po.data ++ ('/') :: n.data)))
        = (u.data ++ (':') :: (p.data ++ ('@') :: (ho.data ++ (':') :: [])))
          ++ (po.data ++ ('/') :: n.data) from by simp]
    rw [List.drop_left]
    rw [show (((u.data.length + 1 + p.data.length + 1 + ho.data.length + 1
          + po.data.length : Nat) : Int).toNat
        - (u.data ++ (':') :: (p.data ++ ('@') :: (ho.data ++ (':') :: []))).length)
        = po.data.length from by
      simp only [List.length_append, List.length_cons, List.length_nil]
      omega]
    rw [show (po.data ++ ('/') :: n.data).take po.data.length = po.data from
      List.take_left _ _]
  have c1 : ¬(((u.data.length : Nat) : Int) < 0) := by omega
  have c2 : (0 : Int) < ((u.data.length : Nat) : Int) := by omega
  have c3 : (0 : Int) < ((u.data.length + 1 + p.data.length : Nat) : Int) := by omega
  have c4 : (0 : Int) < ((u.data.length + 1 + p.data.length + 1
      + ho.data.length : Nat) : Int) := by omega
  have c5 : (0 : Int) < ((u.data.length + 1 + p.data.length + 1 + ho.data.length + 1
      + po.data.length : Nat) : Int) := by omega
  have c6 : ((u.data.length + 1 + p.data.length : Nat) : Int)
      < ((u.data.length + 1 + p.data.length + 1 + ho.data.length : Nat) : Int) := by omega
  have c7 : ¬(((u.data.length + 1 + p.data.length : Nat) : Int) < 0) := by omega
  unfold uriParser
  rw [hc, hrc, ha, hs]
  simp only [c1, c2, c3, c4, c5, c6, c7, if_true, if_false, false_and, and_false,
    and_true, true_and, not_false_eq_true, hname, huser, hpass, hhost, hport]
  rw [if_neg ?hostne3]
  case hostne3 =>
    simp only [not_or]
    refine ⟨by simp, ?_⟩
    intro hcontra
    exact hhne (Option.some.inj hcontra)

/-- Helper for the all-FAILURE divergence: the loop state is invariant
under a status that is neither PENDING nor SUCCESS. -/
theorem pollLoop_constFailure (fuel : Nat) :
    ∀ k, pollLoop constFailure fuel k 0 2 = RemoteResult.outOfFuel := by
  induction fuel with
  | zero => intro k; rfl
  | succ n ih =>
    intro k
    rw [pollLoop]
    rw [if_pos (by omega)]
    rw [if_neg (by simp [constFailure]), if_neg (by simp [constFailure])]
    exact ih (k + 1)

set_option maxRecDepth 10000

/-! ## Claim theorems -/

/-- Claim C1 (code bug, evaluation at the failing input): a zero-value
AND clause is rendered as `IS NOT NULL AND` (line 327), so after the
final one-token trim the compiled statement still ends in a dangling
`AND`, where the claim (and the parallel OR-group branch, line 310)
require a bare `IS NOT NULL`. -/
theorem c1_zero_values_and_bug :
    createSQL cfgZeroAnd true
      = ["SELECT ST_AsText(geom), osm_id, version FROM nodes WHERE  tags->>\x27highway\x27 IS NOT NULL AND"]
    ∧ hasDanglingOp
        ("SELECT ST_AsText(geom), osm_id, version FROM nodes WHERE  tags->>\x27highway\x27 IS NOT NULL AND")
      = true := by
  constructor <;> decide

/-- Claim C2 (counterexample): with one OR clause and one AND clause the
two groups are connected by the OR-group trailing `OR`, not by `AND` as
the claim states: the compiled text contains `... =\x27yes\x27 OR
tags->>\x27amenity\x27 ...` and no `AND` at all. -/
theorem c2_counterexample :
    createSQL cfgOrAnd true
      = ["SELECT ST_AsText(geom), osm_id, version FROM ways_poly WHERE tags->>\x27building\x27 =\x27yes\x27 OR  tags->>\x27amenity\x27 =\x27bar\x27"] := by
  decide

/-- Claim C2 (amended): the OR group is joined with OR, the AND group
with AND, the groups are concatenated with the OR-group trailing OR as
the connective, and the final whitespace-delimited token is trimmed;
provided every AND clause has a nonempty value list the result has no
dangling operator, and for a table with no where entries the dangling
WHERE itself is trimmed, leaving `SELECT ... FROM <table>`. -/
theorem c2_amended (cfg : QueryConfig) (g : Bool)
    (h : ∀ t, ∀ c ∈ cfg.where_ t, c.op = Op.and → c.values ≠ []) :
    (∀ q ∈ createSQL cfg g, hasDanglingOp q = false) ∧
    (∀ t ∈ cfg.tables, cfg.where_ t = [] →
      tableQuery cfg g t = selectPart g (cfg.select t) ++ " FROM " ++ tableNameStr t) := by
  constructor
  · intro q hq
    obtain ⟨t, _, rfl⟩ := List.mem_map.mp hq
    exact (tableQuery_wellFormed cfg g t (h t)).1
  · intro t _ hnil
    exact (tableQuery_wellFormed cfg g t (h t)).2 hnil

/-- Witness for claim C2 at a concrete configuration with no where
entries. -/
theorem c2_amended_witness :
    hasDanglingOp (tableQuery cfgNoWhere true TableName.ways_line) = false
    ∧ tableQuery cfgNoWhere true TableName.ways_line
        = selectPart true (cfgNoWhere.select TableName.ways_line)
          ++ " FROM " ++ tableNameStr TableName.ways_line := by
  have h := c2_amended cfgNoWhere true
    (by intro t c hc; exact absurd hc (by cases t <;> simp [cfgNoWhere]))
  exact ⟨h.1 _ (by decide), h.2 TableName.ways_line (by decide) rfl⟩

/-- Claim C3 (counterexample): a status stream that always reports
FAILURE never advances `elapsed_time`, so the polling loop never exits,
contradicting the claimed termination within the 600-second budget. -/
theorem c3_counterexample : pollDiverges constFailure :=
  fun fuel => pollLoop_constFailure fuel 0

/-- Claim C3 (amended): restricted to PENDING/SUCCESS status streams the
loop exits within the budget (601 iterations of fuel suffice); an
all-PENDING stream yields the null (timeout) result; an immediate
SUCCESS proceeds to download; and the sleep cadence is 31 polls of 2
seconds (through elapsed time 62) followed by 54 polls of 10 seconds. -/
theorem c3_amended (resp : Nat → String)
    (hres : ∀ k, resp k = "PENDING" ∨ resp k = "SUCCESS") :
    pollLoop resp 601 0 0 2 ≠ RemoteResult.outOfFuel
    ∧ ((∀ k, resp k = "PENDING") → pollLoop resp 601 0 0 2 = RemoteResult.nullResult)
    ∧ (resp 0 = "SUCCESS" → pollLoop resp 601 0 0 2 = RemoteResult.success)
    ∧ pollSleeps constPending 601 0 0 2 = List.replicate 31 2 ++ List.replicate 54 10 := by
  refine ⟨pollLoop_exits resp hres 601 0 0 2 (by omega) (by omega) (by omega), ?_, ?_, by decide⟩
  · intro hall
    rw [pollLoop_congr resp constPending (fun j => hall j) 601 0 0 2]
    decide
  · intro h0
    rw [pollLoop]
    rw [if_pos (by omega), if_neg (by rw [h0]; decide), if_pos h0]

/-- Witness for claim C3 at the all-PENDING stream. -/
theorem c3_amended_witness :
    pollLoop constPending 601 0 0 2 ≠ RemoteResult.outOfFuel
    ∧ pollLoop constPending 601 0 0 2 = RemoteResult.nullResult := by
  have h := c3_amended constPending (fun _ => Or.inl rfl)
  exact ⟨h.1, h.2.1 (fun _ => rfl)⟩

/-- Claim C4 (counterexample): a network-level error during submission
is not caught (only `requests.exceptions.HTTPError` is), so it
propagates to the caller instead of being reported as a null result. -/
theorem c4_counterexample :
    queryRemote PostOutcome.raisedConn constPending 601
      = RemoteResult.raised ("ConnectionError") := rfl

/-- Claim C4 (amended): only HTTP status errors are caught.  A
network-level submission error propagates; a 400-or-above response with
a JSON body is returned as a structured error document carrying the
status code; a 400-or-above response with an unparseable body raises
from inside the error handler; a 200 response followed by an
all-PENDING poll yields the null (timeout) result. -/
theorem c4_amended (b : RespBody) (status : Nat) (resp : Nat → String) (fuel : Nat)
    (hs : 400 ≤ status) (hp : ∀ k, resp k = "PENDING") :
    queryRemote PostOutcome.raisedConn resp fuel = RemoteResult.raised ("ConnectionError")
    ∧ queryRemote (PostOutcome.ok status (some b)) resp fuel = RemoteResult.errorDoc b status
    ∧ queryRemote (PostOutcome.ok status none) resp fuel
        = RemoteResult.raised ("JSONDecodeError")
    ∧ queryRemote (PostOutcome.ok 200 (some b)) resp 601 = RemoteResult.nullResult := by
  refine ⟨rfl, ?_, ?_, ?_⟩
  · unfold queryRemote
    dsimp only
    rw [if_pos hs]
  · unfold queryRemote
    dsimp only
    rw [if_pos hs]
  · unfold queryRemote
    dsimp only
    rw [if_neg (by omega), if_neg (by simp)]
    rw [pollLoop_congr resp constPending (fun j => hp j) 601 0 0 2]
    decide

/-- Witness for claim C4 at a concrete error body and status. -/
theorem c4_amended_witness :
    queryRemote PostOutcome.raisedConn constPending 601
        = RemoteResult.raised ("ConnectionError")
    ∧ queryRemote (PostOutcome.ok 422 (some ⟨some "msg"⟩)) constPending 601
        = RemoteResult.errorDoc ⟨some "msg"⟩ 422
    ∧ queryRemote (PostOutcome.ok 422 none) constPending 601
        = RemoteResult.raised ("JSONDecodeError")
    ∧ queryRemote (PostOutcome.ok 200 (some ⟨some "msg"⟩)) constPending 601
        = RemoteResult.nullResult :=
  c4_amended ⟨some "msg"⟩ 422 constPending 601 (by omega) (fun _ => rfl)

/-- Claim C5 (counterexample): an OR clause with a concrete value list
is recorded under `join_and` as well, with the full value list — not
only under the join group dictated by its operator. -/
theorem c5_counterexample :
    dictGet? ((createJsonDoc cfgOrOnly ("B")).filters.point.join_and) ("building")
      = some (["yes"]) := by
  decide

/-- Claim C5 (amended): a clause whose value list contains the
"not null" sentinel is recorded with an empty value list under both
join groups; every other clause is recorded with its value list under
both join groups as well, regardless of the declared operator. -/
theorem c5_amended (cfg : QueryConfig) (b : String) (t : TableName) (c : Clause)
    (hc : c ∈ cfg.where_ t) (hnd : ((cfg.where_ t).map Clause.key).Nodup) :
    (("not null") ∈ c.values →
      dictGet? ((filtersOfTable (createJsonDoc cfg b) t).join_or) c.key = some []
      ∧ dictGet? ((filtersOfTable (createJsonDoc cfg b) t).join_and) c.key = some [])
    ∧ (("not null") ∉ c.values →
      dictGet? ((filtersOfTable (createJsonDoc cfg b) t).join_or) c.key = some c.values
      ∧ dictGet? ((filtersOfTable (createJsonDoc cfg b) t).join_and) c.key
          = some c.values) := by
  have hft : filtersOfTable (createJsonDoc cfg b) t = classFilters cfg t := by
    cases t <;> rfl
  rw [hft]
  unfold classFilters
  exact foldApply_lookup (cfg.where_ t) _ c hc hnd

/-- Witness for claim C5 at a concrete not-null clause. -/
theorem c5_amended_witness :
    dictGet? ((filtersOfTable (createJsonDoc cfgNotNull ("B")) TableName.nodes).join_or)
        ("building") = some []
    ∧ dictGet? ((filtersOfTable (createJsonDoc cfgNotNull ("B")) TableName.nodes).join_and)
        ("building") = some [] := by
  have h := c5_amended cfgNotNull ("B") TableName.nodes
    ⟨"building", ["not null"], Op.or⟩ (by decide) (by decide)
  exact h.1 (by decide)

/-- Claim C6 (counterexample): for the legacy `user:pass/name` shape the
parser also sets `dbport` to the password substring, although the input
specifies no port — the expected decomposition has an empty port. -/
theorem c6_counterexample :
    uriParser ("user:pass/name")
      = ⟨some "name", some "localhost", some "user", some "pass", some "pass"⟩ := by
  decide

/-- Claim C6 (amended): the shapes `name`, `user@host/name` and
`user:pass@host:port/name` decompose exactly as expected, with the host
defaulting to localhost when unspecified; the shape `user:pass/name`
decomposes as expected except that `dbport` is additionally set to the
password substring. -/
theorem c6_amended (u p ho po n : String) (hu : sepFree u) (hp : sepFree p)
    (hh : sepFree ho) (hpo : sepFree po) (hn : sepFree n)
    (hune : u ≠ "") (hhne : ho ≠ "") :
    uriParser n = ⟨some n, some "localhost", none, none, none⟩
    ∧ uriParser (u ++ "@" ++ ho ++ "/" ++ n) = ⟨some n, some ho, some u, none, none⟩
    ∧ uriParser (u ++ ":" ++ p ++ "@" ++ ho ++ ":" ++ po ++ "/" ++ n)
        = ⟨some n, some ho, some u, some p, some po⟩
    ∧ uriParser (u ++ ":" ++ p ++ "/" ++ n)
        = ⟨some n, some "localhost", some u, some p, some p⟩ :=
  ⟨uriParser_shape1 n hn, uriParser_shape2 u ho n hu hh hn hune hhne,
    uriParser_shape3 u p ho po n hu hp hh hpo hn hune hhne,
    uriParser_shape4 u p n hu hp hn hune⟩

/-- Witness for claim C6 at the canonical component strings. -/
theorem c6_amended_witness :
    uriParser ("name") = ⟨some "name", some "localhost", none, none, none⟩
    ∧ uriParser ("user" ++ "@" ++ "host" ++ "/" ++ "name")
        = ⟨some "name", some "host", some "user", none, none⟩
    ∧ uriParser ("user" ++ ":" ++ "pass" ++ "@" ++ "host" ++ ":" ++ "5432" ++ "/" ++ "name")
        = ⟨some "name", some "host", some "user", some "pass", some "5432"⟩
    ∧ uriParser ("user" ++ ":" ++ "pass" ++ "/" ++ "name")
        = ⟨some "name", some "localhost", some "user", some "pass", some "pass"⟩ :=
  c6_amended ("user") ("pass") ("host") ("5432") ("name")
    (by unfold sepFree; decide) (by unfold sepFree; decide) (by unfold sepFree; decide)
    (by unfold sepFree; decide) (by unfold sepFree; decide) (by decide) (by decide)

/-- Claim C7 (counterexample): when the first colon comes after the
first at-sign, the user field is still set to the prefix up to that
colon, contradicting the claim that it is not. -/
theorem c7_counterexample :
    (uriParser ("user@host:5432/name")).dbuser = some ("user@host") := by
  decide

/-- Claim C7 (amended): the user field is the prefix before the first
colon whenever the first colon is at a positive index, regardless of
where the at-sign is; otherwise, with no colon and an at-sign at a
positive index, it is the prefix before the at-sign; otherwise it is
unset. -/
theorem c7_amended (source : String) :
    (uriParser source).dbuser
      = (if 0 < pyFind source (':') then some (pySliceTo source (pyFind source (':')))
        else if pyFind source (':') < 0 ∧ 0 < pyFind source ('@') then
          some (pySliceTo source (pyFind source ('@')))
        else none) := by
  unfold uriParser
  dsimp only
  split_ifs with h1 h2 <;> first | rfl | (exfalso; omega)

/-- Claim C8: the SELECT projection lists the selected attributes in
configuration order, and decoding a synthetic row (geometry, id,
version, then one cell per selected attribute) yields a feature whose
properties are id, version, then exactly the selected attribute keys in
that same order paired positionally with the cells, with null cells
omitted. -/
theorem c8_roundtrip (cfg : QueryConfig) (g : Bool) (q gtext : String)
    (c1 c2 : Option String) (vals : List (Option String)) (t : TableName)
    (htab : 0 < cfg.tables.length)
    (hby : ¬((cfg.where_ TableName.ways_poly).length = 0
      ∧ (cfg.where_ TableName.nodes).length = 0))
    (hnd : ((selectEntriesAll cfg).map Prod.fst).Nodup)
    (hid : ∀ e ∈ selectEntriesAll cfg, e.1 ≠ "id" ∧ e.1 ≠ "version") :
    selectPart g (cfg.select t)
      = (if g then "SELECT ST_AsText(geom)" else "SELECT ST_AsText(ST_Centroid(geom))")
        ++ ", osm_id, version"
        ++ String.join ((cfg.select t).map (fun e => ", tags->>\x27" ++ e.1 ++ "\x27"))
    ∧ queryLocal cfg q (some [some gtext :: c1 :: c2 :: vals])
      = LocalResult.collection
          [{ geometry := gtext
             properties := (("id"), c1) :: (("version"), c2)
               :: (((selectEntriesAll cfg).map Prod.fst).zip vals).filterMap
                    (fun pr => pr.2.map (fun v => (pr.1, some v))) }] := by
  refine ⟨selectPart_eq g _, ?_⟩
  simp only [queryLocal]
  rw [if_neg hby]
  rw [if_neg (by simp)]
  unfold decodeRows
  unfold decodeRow
  dsimp only
  rw [if_pos htab]
  have htags : dictSet (dictSet ([] : List (String × Option String)) ("id") c1)
      ("version") c2 = [(("id"), c1), (("version"), c2)] := rfl
  rw [htags]
  rw [decodeLoop_zip (some gtext :: c1 :: c2 :: vals) (selectEntriesAll cfg) 3
    [(("id"), c1), (("version"), c2)] hnd ?fresh (by simp)]
  · simp [decodeRows]
  case fresh =>
    intro e he qq hqq
    rcases List.mem_cons.mp hqq with rfl | hqq
    · exact (hid e he).1
    · rw [List.mem_singleton.mp hqq]
      exact (hid e he).2

/-- Witness for claim C8 at a two-attribute configuration and a row
with one non-null and one null attribute cell. -/
theorem c8_roundtrip_witness :
    queryLocal cfgTwoAttrs ("q")
        (some [[some "POLYGON((1 2))", some "4451", some "2", some "yes", none]])
      = LocalResult.collection
          [{ geometry := "POLYGON((1 2))"
             properties := [(("id"), some "4451"), (("version"), some "2"),
               (("building"), some "yes")] }] := by
  have h := c8_roundtrip cfgTwoAttrs true ("q") ("POLYGON((1 2))") (some "4451") (some "2")
    [some "yes", none] TableName.ways_poly (by decide) (by decide) (by decide) (by decide)
  exact h.2.trans (by decide)

/-- Claim C9: with no where filters on the polygon and point classes,
queryLocal returns the fetched row tuples unchanged. -/
theorem c9_bypass (cfg : QueryConfig) (q : String) (rows : List (List (Option String)))
    (h1 : cfg.where_ TableName.ways_poly = []) (h2 : cfg.where_ TableName.nodes = []) :
    queryLocal cfg q (some rows) = LocalResult.raw rows := by
  simp only [queryLocal]
  rw [if_pos ⟨by rw [h1]; rfl, by rw [h2]; rfl⟩]

/-- Witness for claim C9 at a line-only configuration and raw rows. -/
theorem c9_bypass_witness :
    queryLocal cfgNoFilters ("custom sql") (some [[some "a"], [none, some "b"]])
      = LocalResult.raw [[some "a"], [none, some "b"]] :=
  c9_bypass cfgNoFilters ("custom sql") [[some "a"], [none, some "b"]] rfl rfl

/-- Claim C10: createJson succeeds exactly on configurations without a
centroid key; with the key present it raises the NameError from the
unbound identifier `true`. -/
theorem c10_centroid (cfg : QueryConfig) (b : String) :
    (createJson cfg b).isOk = !cfg.centroid
    ∧ (cfg.centroid = true →
        createJson cfg b = Except.error ("NameError: name \x27true\x27 is not defined")) := by
  unfold createJson
  cases hc : cfg.centroid
  · simp [Except.isOk, Except.toBool]
  · simp [Except.isOk, Except.toBool]

/-- Witness for claim C10 at a config carrying the centroid key. -/
theorem c10_centroid_witness :
    createJson cfgCentroid ("B")
      = Except.error ("NameError: name \x27true\x27 is not defined") :=
  (c10_centroid cfgCentroid ("B")).2 rfl

end OsmRaw
